import Mathlib

/-
Verification of the HELIX pipeline orchestration engine.

Shallow embedding of the engine code:
  - src/src/sdk/agent_sdk.py        (BaseAgent.run_task, save_output_and_complete_task,
                                     claim_next_task, AgentWorker poll loop)
  - src/src/orchestrator/main.py    (HelixOrchestrator polling cycles)
  - src/src/orchestrator/workflow_engine.py (WorkflowEngine)
  - src/src/exceptions.py           (classify_error)

The database (jobs, tasks, artifacts tables) is modelled as explicit state.
Timestamp columns (created_at, updated_at, assigned_at, started_at) are modelled
only where a claim observes them: completed_at is modelled as a Boolean flag.
List order of the tasks and artifacts lists models creation-time order, which
is what the ORDER BY created_at clauses of the polling queries observe.
-/

namespace Helix

inductive JobStatus where
  | PENDING
  | IN_PROGRESS
  | COMPLETED
  | FAILED
  | CANCELLED
deriving DecidableEq, Repr

inductive TaskStatus where
  | PENDING
  | ASSIGNED
  | IN_PROGRESS
  | COMPLETED
  | FAILED
  | RETRYING
  | ORCHESTRATED
deriving DecidableEq, Repr

/-- Opaque JSON payload values, distinguished only as far as the code inspects
them: dict (with a truthiness-relevant field list), string, or number. -/
inductive Payload where
  | obj (fields : List (String × String))
  | str (s : String)
  | num (n : Int)
deriving DecidableEq, Repr

/-- TaskOutput from src/src/database/models.py: schema_id plus payload. -/
structure TaskOutput where
  schemaId : String
  payload : Payload
deriving DecidableEq, Repr

/-- One row of the tasks table (fields the engine reads or writes).
errorLog models the error_log column with the empty string standing for NULL,
matching how the code treats it (COALESCE(error_log, '')). -/
structure TaskRec where
  id : Nat
  jobId : Nat
  agentId : String
  status : TaskStatus
  inputArtifacts : List (String × Nat)
  outputData : Option TaskOutput
  errorLog : String
  retryCount : Nat
  hasCompletedAt : Bool
deriving DecidableEq, Repr

/-- One row of the jobs table (fields the engine reads or writes). -/
structure JobRec where
  id : Nat
  status : JobStatus
  hasCompletedAt : Bool
deriving DecidableEq, Repr

/-- One row of the artifacts table. -/
structure ArtifactRec where
  taskId : Nat
  name : String
  schemaId : String
  payload : Payload
deriving DecidableEq, Repr

/-- The database state: the three tables plus the sequence counter that
assigns ids to newly inserted tasks. -/
structure DB where
  jobs : List JobRec
  tasks : List TaskRec
  artifacts : List ArtifactRec
  nextTaskId : Nat
deriving DecidableEq, Repr

/-- SELECT * FROM tasks WHERE id = $1 (BaseAgent.get_task). -/
def findTask (db : DB) (tid : Nat) : Option TaskRec :=
  db.tasks.find? (fun t => t.id == tid)

def findJob (db : DB) (jid : Nat) : Option JobRec :=
  db.jobs.find? (fun j => j.id == jid)

/-- UPDATE tasks SET ... WHERE id = tid, as a pointwise row rewrite. -/
def updateTask (db : DB) (tid : Nat) (f : TaskRec → TaskRec) : DB :=
  { db with tasks := db.tasks.map (fun t => if t.id == tid then f t else t) }

def updateJob (db : DB) (jid : Nat) (f : JobRec → JobRec) : DB :=
  { db with jobs := db.jobs.map (fun j => if j.id == jid then f j else j) }

/-- Whether an artifacts row with this (task_id, name) key exists. -/
def artifactExists (db : DB) (tid : Nat) (name : String) : Bool :=
  db.artifacts.any (fun a => a.taskId == tid && a.name == name)

/-- Number of artifacts rows with this (task_id, name) key. -/
def artifactCount (db : DB) (tid : Nat) (name : String) : Nat :=
  (db.artifacts.filter (fun a => a.taskId == tid && a.name == name)).length

def taskHasStatus (db : DB) (tid : Nat) (s : TaskStatus) : Bool :=
  match findTask db tid with
  | some t => t.status == s
  | none => false

def taskCompletedAt (db : DB) (tid : Nat) : Bool :=
  match findTask db tid with
  | some t => t.hasCompletedAt
  | none => false

def jobHasStatus (db : DB) (jid : Nat) (s : JobStatus) : Bool :=
  match findJob db jid with
  | some j => j.status == s
  | none => false

/-- Whether the char list pat occurs at the head of l. -/
def listStartsWith : List Char → List Char → Bool
  | _, [] => true
  | [], _ :: _ => false
  | a :: as, b :: bs => a == b && listStartsWith as bs

def listContainsSub : List Char → List Char → Bool
  | l, pat =>
    match l with
    | [] => pat.isEmpty
    | _ :: rest => listStartsWith l pat || listContainsSub rest pat

/-- Substring containment, modelling both the SQL LIKE marker test and the
Python keyword search. -/
def strContains (s pat : String) : Bool :=
  listContainsSub s.toList pat.toList

/-- A raised Python exception as the engine observes it: either a typed
RetryableError/NonRetryableError subclass (some true / some false) or an
untyped error classified from its message text (none). From src/src/exceptions.py. -/
structure PyErr where
  typedRetryable : Option Bool
  msg : String
deriving DecidableEq, Repr

def retryableKeywords : List String :=
  ["timeout", "timed out", "connection", "network", "temporarily", "temporary",
   "rate limit", "too many requests", "service unavailable", "503",
   "gateway timeout", "504"]

def nonRetryableKeywords : List String :=
  ["validation", "invalid", "unauthorized", "forbidden", "not found", "404",
   "bad request", "400", "schema", "type error"]

/-- classify_error from src/src/exceptions.py: typed classification first, then
keyword heuristics on the lowercased message, defaulting to retryable. -/
def classifyError (e : PyErr) : Bool :=
  match e.typedRetryable with
  | some b => b
  | none =>
    let m := e.msg.toLower
    if retryableKeywords.any (fun k => strContains m k) then true
    else if nonRetryableKeywords.any (fun k => strContains m k) then false
    else true

/-- BaseAgent.update_task_status (agent_sdk.py lines 148 to 177): each status
has its own UPDATE statement; statuses without a branch write nothing. -/
def updateTaskStatus (db : DB) (tid : Nat) (s : TaskStatus) (errLog : Option String) : DB :=
  match s with
  | .IN_PROGRESS => updateTask db tid (fun t => { t with status := .IN_PROGRESS })
  | .COMPLETED =>
      updateTask db tid (fun t => { t with status := .COMPLETED, hasCompletedAt := true })
  | .FAILED => updateTask db tid (fun t => { t with status := .FAILED, errorLog := errLog.getD "" })
  | .RETRYING =>
      updateTask db tid (fun t => { t with status := .RETRYING, errorLog := errLog.getD "" })
  | _ => db

/-- BaseAgent increment of retry_count (agent_sdk.py lines 179 to 186). -/
def incrementRetryCount (db : DB) (tid : Nat) : DB :=
  updateTask db tid (fun t => { t with retryCount := t.retryCount + 1 })

/-- BaseAgent agent to artifact-name mapping (agent_sdk.py lines 267 to 276). -/
def agentArtifactMap : List (String × String) :=
  [("AGENT_1", "creative_brief"), ("AGENT_2", "visual_explorations"),
   ("AGENT_3", "presentation_blueprint"), ("AGENT_4", "audit_report"),
   ("AGENT_5", "evolution_proposal")]

def artifactNameForAgent (agentId : String) : String :=
  match agentArtifactMap.find? (fun p => p.fst == agentId) with
  | some p => p.snd
  | none => "artifact_" ++ agentId.toLower

/-- The PresentationBlueprint payload shape check carried out inside the SDK
commit transaction (agent_sdk.py lines 229 to 239); returns the raised
ValueError, if any. -/
def blueprintCheck (schemaId : String) (p : Payload) : Option PyErr :=
  if schemaId == "PresentationBlueprint_v1.0" then
    match p with
    | .str s =>
        if (s.trim).startsWith "<!DOCTYPE html>" then
          some ⟨none, "PresentationBlueprint must be JSON object, not HTML string"⟩
        else some ⟨none, "PresentationBlueprint must be dict, not str"⟩
    | .obj _ => none
    | .num _ => some ⟨none, "PresentationBlueprint must be dict, not int"⟩
  else none

/-- Modelled from the spec: the artifacts table carries a UNIQUE (task_id, name)
constraint (spec section 3; the DDL is not under src/, but the ON CONFLICT
(task_id, name) clause in main.py requires such a unique index to exist).
A plain INSERT INTO artifacts therefore raises a unique-violation error on a
duplicate key; otherwise it appends the row. -/
def insertArtifactUnique (db : DB) (a : ArtifactRec) : Except PyErr DB :=
  if artifactExists db a.taskId a.name then
    .error ⟨none, "duplicate key value violates unique constraint"⟩
  else .ok { db with artifacts := db.artifacts ++ [a] }

/-- INSERT INTO artifacts ... ON CONFLICT (task_id, name) DO NOTHING
(main.py lines 319 to 326): the duplicate case is absorbed. -/
def insertArtifactOnConflict (db : DB) (a : ArtifactRec) : DB :=
  if artifactExists db a.taskId a.name then db
  else { db with artifacts := db.artifacts ++ [a] }

/-- BaseAgent.save_output_and_complete_task (agent_sdk.py lines 188 to 265).
Jsonschema validation (together with the schema-file existence check) is
abstracted into the schemaOk parameter; both of its failure modes raise a
ValueError whose message carries a non-retryable keyword (validation, not
found). stepOk injects infrastructure failures of the individual statements in
the transaction, to express the all-or-nothing contract. An .error result
means the exception propagates with the whole transaction rolled back, so the
caller keeps the unchanged database. -/
def saveOutputAndCompleteTask (schemaOk : TaskOutput → Bool) (stepOk : Nat → Bool)
    (db : DB) (tid : Nat) (agentId : String) (out : TaskOutput) : Except PyErr DB :=
  if ¬ schemaOk out then
    .error ⟨none, "Output schema validation failed"⟩
  else
    let artifactName := artifactNameForAgent agentId
    -- single transaction: three statements, all-or-nothing
    if ¬ stepOk 1 then .error ⟨none, "database connection failure"⟩
    else
      let db1 := updateTask db tid (fun t => { t with outputData := some out })
      match blueprintCheck out.schemaId out.payload with
      | some e => .error e
      | none =>
        if ¬ stepOk 2 then .error ⟨none, "database connection failure"⟩
        else
          match insertArtifactUnique db1 ⟨tid, artifactName, out.schemaId, out.payload⟩ with
          | .error e => .error e
          | .ok db2 =>
            if ¬ stepOk 3 then .error ⟨none, "database connection failure"⟩
            else .ok (updateTask db2 tid
                (fun t => { t with status := .COMPLETED, hasCompletedAt := true }))

/-- The database the caller observes after the commit call: the committed
state on success; on a raised error, the rolled-back (original) state. -/
def saveOutputAndCompleteTaskRun (schemaOk : TaskOutput → Bool) (stepOk : Nat → Bool)
    (db : DB) (tid : Nat) (agentId : String) (out : TaskOutput) : DB :=
  match saveOutputAndCompleteTask schemaOk stepOk db tid agentId out with
  | .ok db2 => db2
  | .error _ => db

/-- Result of one invocation of the opaque stage processing function
(BaseAgent.process_task): a TaskOutput or a raised exception. -/
inductive StageResult where
  | success (out : TaskOutput)
  | failure (e : PyErr)
deriving DecidableEq, Repr

/-- Observable outcome of run_task: the returned boolean, the final database,
the number of stage-function invocations, and the list of backoff sleeps (in
seconds) in the order they were awaited. -/
structure RunOutcome where
  returned : Bool
  db : DB
  invocations : Nat
  sleeps : List Nat
deriving DecidableEq, Repr

/-- The status write at the top of each loop iteration of run_task (line 82):
IN_PROGRESS on the first attempt or when the refreshed task is RETRYING. -/
def markInProgressIfNeeded (db : DB) (tid attempt : Nat) : DB :=
  if attempt == 0 || taskHasStatus db tid .RETRYING then
    updateTaskStatus db tid .IN_PROGRESS none
  else db

/-- The body of one run_task attempt: invoke the stage function, and on
success run the atomic commit; any raised error is returned. -/
def runTaskAttemptResult (schemaOk : TaskOutput → Bool) (stepOk : Nat → Bool)
    (tid : Nat) (agentId : String) (db1 : DB) : StageResult → Except PyErr DB
  | .success out => saveOutputAndCompleteTask schemaOk stepOk db1 tid agentId out
  | .failure e => .error e

/-- The refreshed database going into the next attempt after a retryable
error: retry_count incremented, status RETRYING with the error recorded. -/
def retryDB (db : DB) (tid attempt : Nat) (e : PyErr) : DB :=
  updateTaskStatus (incrementRetryCount (markInProgressIfNeeded db tid attempt) tid)
    tid .RETRYING (some e.msg)

/-- The retry loop of BaseAgent.run_task (agent_sdk.py lines 79 to 134).
stage gives the attempt-indexed behaviour of the stage function; fuel is the
number of loop iterations remaining (maxRetries - attempt), so the loop mirrors
the Python for attempt in range(max_retries). Each iteration marks the task
IN_PROGRESS (on the first attempt or when the refreshed task is RETRYING),
invokes the stage function, and on an exception either retries (retryable and
attempts remain: increment retry_count, set RETRYING with the error, sleep
retry_delay * 2 ^ attempt) or marks the task FAILED and returns False. -/
def runTaskLoop (stage : Nat → StageResult) (schemaOk : TaskOutput → Bool)
    (stepOk : Nat → Bool) (maxRetries retryDelay tid : Nat) (agentId : String) :
    Nat → Nat → DB → RunOutcome
  | _, 0, db => ⟨false, db, 0, []⟩
  | attempt, fuel + 1, db =>
    match runTaskAttemptResult schemaOk stepOk tid agentId
        (markInProgressIfNeeded db tid attempt) (stage attempt) with
    | .ok db2 => ⟨true, db2, 1, []⟩
    | .error e =>
      if classifyError e && decide (attempt < maxRetries - 1) then
        ⟨(runTaskLoop stage schemaOk stepOk maxRetries retryDelay tid agentId
            (attempt + 1) fuel (retryDB db tid attempt e)).returned,
         (runTaskLoop stage schemaOk stepOk maxRetries retryDelay tid agentId
            (attempt + 1) fuel (retryDB db tid attempt e)).db,
         (runTaskLoop stage schemaOk stepOk maxRetries retryDelay tid agentId
            (attempt + 1) fuel (retryDB db tid attempt e)).invocations + 1,
         retryDelay * 2 ^ attempt ::
           (runTaskLoop stage schemaOk stepOk maxRetries retryDelay tid agentId
             (attempt + 1) fuel (retryDB db tid attempt e)).sleeps⟩
      else ⟨false, updateTaskStatus (markInProgressIfNeeded db tid attempt) tid
        .FAILED (some e.msg), 1, []⟩

/-- BaseAgent.run_task (agent_sdk.py lines 49 to 140): fetch the task, return
False when missing, return True immediately when the task is already COMPLETED
(idempotency guard), otherwise run the bounded retry loop. -/
def runTask (stage : Nat → StageResult) (schemaOk : TaskOutput → Bool)
    (stepOk : Nat → Bool) (maxRetries retryDelay : Nat) (db : DB) (tid : Nat)
    (agentId : String) : RunOutcome :=
  match findTask db tid with
  | none => ⟨false, db, 0, []⟩
  | some t =>
    if t.status == TaskStatus.COMPLETED then ⟨true, db, 0, []⟩
    else runTaskLoop stage schemaOk stepOk maxRetries retryDelay tid agentId 0 maxRetries db

/-- BaseAgent.claim_next_task (agent_sdk.py lines 478 to 519): inside one
transaction, SELECT the oldest PENDING task for this agent FOR UPDATE SKIP
LOCKED and mark it ASSIGNED. Because the SELECT and UPDATE share a transaction
and competing claimants skip the locked row, the whole claim is one atomic
step; concurrent claims therefore serialize, which the model expresses by
composing claims sequentially. -/
def claimNextTask (agentId : String) (db : DB) : Option Nat × DB :=
  match db.tasks.find? (fun t => t.agentId == agentId && t.status == TaskStatus.PENDING) with
  | some t =>
      (some t.id, updateTask db t.id (fun u => { u with status := .ASSIGNED }))
  | none => (none, db)

/-- n Task Runner instances racing through claim_next_task: the serialized
sequence of their atomic claim transactions. -/
def claimMany (agentId : String) : Nat → DB → List (Option Nat) × DB
  | 0, db => ([], db)
  | n + 1, db =>
    let r1 := claimNextTask agentId db
    let rest := claimMany agentId n r1.2
    (r1.1 :: rest.1, rest.2)

/-- The SELECT of AgentWorker._poll_tasks (agent_sdk.py lines 674 to 683):
ids of PENDING tasks for the worker's agents, oldest first, LIMIT 10. This
read runs outside any row lock. -/
def pollTasksRead (db : DB) (agentIds : List String) : List Nat :=
  ((db.tasks.filter (fun t => t.status == TaskStatus.PENDING
      && agentIds.contains t.agentId)).map (fun t => t.id)).take 10

/-- The unconditional UPDATE of AgentWorker._poll_tasks (lines 692 to 698):
set status ASSIGNED for a previously fetched id, with no status recheck. -/
def assignTask (db : DB) (tid : Nat) : DB :=
  updateTask db tid (fun t => { t with status := .ASSIGNED })

/-- Interleaving of two concurrently polling AgentWorkers in which both
perform their (lockless) SELECT before either performs its UPDATE: each
worker then assigns and dispatches every id its own read returned. -/
def twoWorkerPollRace (db : DB) (agents1 agents2 : List String) :
    List Nat × List Nat × DB :=
  let ids1 := pollTasksRead db agents1
  let ids2 := pollTasksRead db agents2
  let dbA := ids1.foldl assignTask db
  let dbB := ids2.foldl assignTask dbA
  (ids1, ids2, dbB)

/-- One agent entry of workflows.json, as parsed JSON. -/
structure WorkflowAgent where
  id : String
  inputArtifacts : List String
  outputArtifact : Option String
deriving DecidableEq, Repr

/-- The parsed workflows.json configuration. -/
structure WorkflowConfig where
  agents : List WorkflowAgent
  executionOrder : List String
deriving DecidableEq, Repr

/-- The in-memory state WorkflowEngine.load_workflows builds. -/
structure WorkflowEngine where
  agentDefs : List (String × WorkflowAgent)
  executionOrder : List String
deriving DecidableEq, Repr

def lookupAgent (eng : WorkflowEngine) (agentId : String) : Option WorkflowAgent :=
  (eng.agentDefs.find? (fun p => p.fst == agentId)).map (fun p => p.snd)

/-- WorkflowEngine.load_workflows (workflow_engine.py lines 27 to 60): parse
the configuration into agent_definitions and execution_order. Its only
failure modes are a missing file or malformed JSON; on an already parsed
configuration it always succeeds, performing no dependency validation. -/
def loadWorkflows (cfg : WorkflowConfig) : Option WorkflowEngine :=
  some { agentDefs := cfg.agents.map (fun a => (a.id, a)),
         executionOrder := cfg.executionOrder }

/-- HelixOrchestrator.start (main.py lines 31 to 48) initializes the workflow
engine by calling load_workflows only; validate_workflow is not invoked. -/
def orchestratorStartEngine (cfg : WorkflowConfig) : Option WorkflowEngine :=
  loadWorkflows cfg

/-- Python list.index: position of the first occurrence, or a raised
ValueError modelled as none. -/
def pyIndex (l : List String) (x : String) : Option Nat :=
  match l with
  | [] => none
  | a :: rest => if a == x then some 0 else (pyIndex rest x).map (· + 1)

/-- WorkflowEngine.get_next_agents (workflow_engine.py lines 68 to 95): locate
the agent in execution_order (a ValueError is caught and yields []); the last
position yields []; otherwise the singleton of the next agent in order. -/
def getNextAgents (eng : WorkflowEngine) (current : String) : List String :=
  match pyIndex eng.executionOrder current with
  | none => []
  | some i =>
    if eng.executionOrder.length ≤ i + 1 then []
    else
      match eng.executionOrder.get? (i + 1) with
      | some nxt => [nxt]
      | none => []

def getAgentInputArtifacts (eng : WorkflowEngine) (agentId : String) : List String :=
  match lookupAgent eng agentId with
  | some a => a.inputArtifacts
  | none => []

def getAgentOutputArtifact (eng : WorkflowEngine) (agentId : String) : Option String :=
  match lookupAgent eng agentId with
  | some a => a.outputArtifact
  | none => none

/-- The dependency fold of WorkflowEngine.validate_workflow (lines 120 to
137): walk execution_order accumulating available artifact names; a required
input that is not yet available fails the validation. -/
def validateWorkflowAux (eng : WorkflowEngine) (available : List String) :
    List String → Bool
  | [] => true
  | a :: rest =>
    match lookupAgent eng a with
    | none => false
    | some def_ =>
      if def_.inputArtifacts.all (fun art => available.contains art) then
        match def_.outputArtifact with
        | some o => validateWorkflowAux eng (available ++ [o]) rest
        | none => validateWorkflowAux eng available rest
      else false

/-- WorkflowEngine.validate_workflow (workflow_engine.py lines 111 to 144):
every agent of execution_order must be defined, and every required input
artifact must be produced by an earlier agent in the order. -/
def validateWorkflow (eng : WorkflowEngine) : Bool :=
  eng.executionOrder.all (fun a => (lookupAgent eng a).isSome)
    && validateWorkflowAux eng [] eng.executionOrder

/-- HelixOrchestrator._create_task (main.py lines 257 to 269): INSERT a new
PENDING task row; the id is assigned by the database sequence. -/
def createTask (db : DB) (jobId : Nat) (agentId : String)
    (inputArts : List (String × Nat)) : DB :=
  { db with
    tasks := db.tasks ++
      [{ id := db.nextTaskId, jobId := jobId, agentId := agentId,
         status := .PENDING, inputArtifacts := inputArts, outputData := none,
         errorLog := "", retryCount := 0, hasCompletedAt := false }],
    nextTaskId := db.nextTaskId + 1 }

/-- HelixOrchestrator._complete_job (main.py lines 359 to 369). -/
def completeJob (db : DB) (jobId : Nat) : DB :=
  updateJob db jobId (fun j => { j with status := .COMPLETED, hasCompletedAt := true })

def taskInJob (db : DB) (tid jobId : Nat) : Bool :=
  match findTask db tid with
  | some t => t.jobId == jobId
  | none => false

/-- The per-artifact lookup of HelixOrchestrator._prepare_task_input (main.py
lines 338 to 347): the source task of the most recently created artifact with
this name among the tasks of this job. -/
def latestArtifactSource (db : DB) (jobId : Nat) (name : String) : Option Nat :=
  ((db.artifacts.filter (fun a => a.name == name && taskInJob db a.taskId jobId)).getLast?).map
    (fun a => a.taskId)

/-- HelixOrchestrator._prepare_task_input (main.py lines 331 to 357): resolve
each required input artifact name; names with no artifact yet are skipped. -/
def prepareTaskInput (eng : WorkflowEngine) (db : DB) (jobId : Nat)
    (agentId : String) : List (String × Nat) :=
  (getAgentInputArtifacts eng agentId).filterMap
    (fun name => (latestArtifactSource db jobId name).map (fun tid => (name, tid)))

/-- Python truthiness of a payload value, as tested by the bare
if schema_id and payload check in _create_artifact. -/
def payloadTruthy : Payload → Bool
  | .obj fields => !fields.isEmpty
  | .str s => !s.isEmpty
  | .num n => n != 0

/-- The minimal recovery blueprint _create_artifact substitutes for a
malformed PresentationBlueprint payload (main.py lines 295 to 317). -/
def recoveryBlueprint (reason : String) : Payload :=
  .obj [("narrative_structure", ""), ("content_sections", ""),
        ("storytelling_elements", ""), ("engagement_strategy", ""),
        ("metadata", reason)]

/-- HelixOrchestrator._create_artifact (main.py lines 271 to 329): build the
artifact row from the task's output_data and the workflow's declared output
artifact name, repair malformed PresentationBlueprint payloads, and INSERT
with ON CONFLICT (task_id, name) DO NOTHING. Tasks without output data, agents
without a declared output artifact, and falsy schema_id or payload write
nothing. -/
def createArtifact (eng : WorkflowEngine) (db : DB) (task : TaskRec) : DB :=
  match task.outputData with
  | none => db
  | some out =>
    match getAgentOutputArtifact eng task.agentId with
    | none => db
    | some artifactName =>
      if out.schemaId != "" && payloadTruthy out.payload then
        let payload :=
          if out.schemaId == "PresentationBlueprint_v1.0" then
            match out.payload with
            | .str s =>
                if (s.trim).startsWith "<!DOCTYPE html>" then
                  recoveryBlueprint "Invalid payload format - HTML string instead of JSON"
                else recoveryBlueprint "Invalid payload type: str"
            | .num _ => recoveryBlueprint "Invalid payload type: int"
            | .obj fields => .obj fields
          else out.payload
        insertArtifactOnConflict db ⟨task.id, artifactName, out.schemaId, payload⟩
      else db

/-- The [ORCHESTRATED] marker write of _process_completed_task (main.py lines
197 to 202): append the tag to error_log unless it is already present. -/
def markOrchestrated (db : DB) (tid : Nat) : DB :=
  updateTask db tid (fun t =>
    if strContains t.errorLog "[ORCHESTRATED]" then t
    else { t with errorLog := t.errorLog ++ "[ORCHESTRATED]" })

/-- HelixOrchestrator._process_completed_task (main.py lines 169 to 217):
create the artifact for the completed task, resolve the next agents; when
there are none mark the job COMPLETED, otherwise create one new PENDING task
per next agent with resolved inputs; finally mark the task [ORCHESTRATED]. -/
def processCompletedTask (eng : WorkflowEngine) (db : DB) (task : TaskRec) : DB :=
  let db1 := createArtifact eng db task
  let nextAgents := getNextAgents eng task.agentId
  let db2 :=
    if nextAgents.isEmpty then completeJob db1 task.jobId
    else nextAgents.foldl
      (fun d a => createTask d task.jobId a (prepareTaskInput eng d task.jobId a)) db1
  markOrchestrated db2 task.id

/-- HelixOrchestrator._create_system_failure_case (main.py lines 371 to 419):
INSERT a system_failure_case artifact owned by the FAILED task itself. The
document payload content (built by _analyze_task_failure) is opaque to every
claim and is modelled as a nonempty object. Exceptions are caught and logged,
so a duplicate-key failure leaves the database unchanged. -/
def createSystemFailureCase (db : DB) (failedTask : TaskRec) : DB :=
  match insertArtifactUnique db
      ⟨failedTask.id, "system_failure_case", "SystemFailureCase_v1.0",
       .obj [("failure_instances", failedTask.errorLog)]⟩ with
  | .ok db2 => db2
  | .error _ => db

/-- HelixOrchestrator._process_failed_task (main.py lines 219 to 255): a
FAILED task with retry_count below max_retry_attempts is set back to PENDING
with retry_count + 1; otherwise the orchestrator creates the failure-case
artifact, creates a new PENDING task for AGENT_5 with resolved inputs, and
marks the job FAILED. -/
def processFailedTask (eng : WorkflowEngine) (maxRetryAttempts : Nat) (db : DB)
    (task : TaskRec) : DB :=
  if task.retryCount < maxRetryAttempts then
    updateTask db task.id
      (fun t => { t with status := .PENDING, retryCount := t.retryCount + 1 })
  else
    let db1 := createSystemFailureCase db task
    let db2 := createTask db1 task.jobId "AGENT_5"
      (prepareTaskInput eng db1 task.jobId "AGENT_5")
    updateJob db2 task.jobId (fun j => { j with status := .FAILED })

/-- The WHERE clause of the failed-task monitoring query (main.py lines 113 to
118): FAILED tasks with retry_count below max_retry_attempts. -/
def monitorFailedTasksSelect (db : DB) (maxRetryAttempts : Nat) : List TaskRec :=
  db.tasks.filter (fun t => t.status == TaskStatus.FAILED
    && t.retryCount < maxRetryAttempts)

/-- The WHERE clause of the completed-task polling query (main.py lines 84 to
92): COMPLETED tasks of IN_PROGRESS jobs not yet tagged [ORCHESTRATED]. -/
def pollCompletedTasksSelect (db : DB) : List TaskRec :=
  db.tasks.filter (fun t => t.status == TaskStatus.COMPLETED
    && jobHasStatus db t.jobId .IN_PROGRESS
    && !(strContains t.errorLog "[ORCHESTRATED]"))

/-- Cross-entity invariant of spec section 3, as a decidable check: every
artifacts row is owned by a task whose status is COMPLETED. -/
def artifactInv (db : DB) : Bool :=
  db.artifacts.all (fun a => db.tasks.all
    (fun t => !(t.id == a.taskId) || t.status == TaskStatus.COMPLETED))

/-
Concrete fixtures used by witnesses and counterexamples. The workflows.json
file itself is not part of the source tree, so these are test configurations
exercising the engine functions; agent ids follow the ones the code mentions
(AGENT_1 for the first stage, AGENT_5 for escalation).
-/

def sOkTrue : TaskOutput → Bool := fun _ => true

def stepOkAll : Nat → Bool := fun _ => true

def outBrief : TaskOutput := ⟨"CreativeBrief_v1.0", .obj [("summary", "ok")]⟩

/-- A stage function raising a typed RetryableError on every attempt. -/
def stageFailNet : Nat → StageResult := fun _ => .failure ⟨some true, "network glitch"⟩

def engTest : WorkflowEngine :=
  { agentDefs :=
      [("AGENT_1", ⟨"AGENT_1", [], some "creative_brief"⟩),
       ("AGENT_2", ⟨"AGENT_2", ["creative_brief"], some "visual_explorations"⟩)],
    executionOrder := ["AGENT_1", "AGENT_2"] }

def taskDone1 : TaskRec :=
  { id := 1, jobId := 1, agentId := "AGENT_1", status := .COMPLETED,
    inputArtifacts := [], outputData := some outBrief, errorLog := "",
    retryCount := 0, hasCompletedAt := true }

def dbDone : DB :=
  { jobs := [⟨1, .IN_PROGRESS, false⟩], tasks := [taskDone1], artifacts := [],
    nextTaskId := 2 }

def taskRun1 : TaskRec :=
  { id := 1, jobId := 1, agentId := "AGENT_1", status := .ASSIGNED,
    inputArtifacts := [], outputData := none, errorLog := "", retryCount := 0,
    hasCompletedAt := false }

def dbRun : DB :=
  { jobs := [⟨1, .IN_PROGRESS, false⟩], tasks := [taskRun1], artifacts := [],
    nextTaskId := 2 }

def taskFail7 : TaskRec :=
  { id := 7, jobId := 3, agentId := "AGENT_2", status := .FAILED,
    inputArtifacts := [], outputData := none, errorLog := "network glitch",
    retryCount := 1, hasCompletedAt := false }

def dbFail : DB :=
  { jobs := [⟨3, .IN_PROGRESS, false⟩], tasks := [taskFail7], artifacts := [],
    nextTaskId := 8 }

def taskFail9 : TaskRec :=
  { id := 9, jobId := 2, agentId := "AGENT_2", status := .FAILED,
    inputArtifacts := [], outputData := none, errorLog := "network glitch",
    retryCount := 3, hasCompletedAt := false }

def dbExhausted : DB :=
  { jobs := [⟨2, .IN_PROGRESS, false⟩], tasks := [taskFail9], artifacts := [],
    nextTaskId := 10 }

def dbDup : DB :=
  { jobs := [⟨1, .IN_PROGRESS, false⟩], tasks := [taskRun1],
    artifacts := [⟨1, "creative_brief", "CreativeBrief_v1.0", .obj [("summary", "ok")]⟩],
    nextTaskId := 2 }

def badWorkflowConfig : WorkflowConfig :=
  { agents :=
      [⟨"AGENT_A", [], some "a_out"⟩,
       ⟨"AGENT_B", ["missing_input"], some "b_out"⟩],
    executionOrder := ["AGENT_A", "AGENT_B"] }

def engBad : WorkflowEngine :=
  { agentDefs := [("AGENT_A", ⟨"AGENT_A", [], some "a_out"⟩),
                  ("AGENT_B", ⟨"AGENT_B", ["missing_input"], some "b_out"⟩)],
    executionOrder := ["AGENT_A", "AGENT_B"] }

def taskPend1 : TaskRec :=
  { id := 1, jobId := 1, agentId := "AGENT_1", status := .PENDING,
    inputArtifacts := [], outputData := none, errorLog := "", retryCount := 0,
    hasCompletedAt := false }

def dbPend : DB :=
  { jobs := [⟨1, .IN_PROGRESS, false⟩], tasks := [taskPend1], artifacts := [],
    nextTaskId := 2 }

def taskGhost : TaskRec :=
  { id := 4, jobId := 1, agentId := "AGENT_X", status := .COMPLETED,
    inputArtifacts := [], outputData := none, errorLog := "", retryCount := 0,
    hasCompletedAt := true }

/-- The fully committed row of a task: output written, status COMPLETED,
completion timestamp set. -/
def completeTaskRow (out : TaskOutput) (u : TaskRec) : TaskRec :=
  { u with outputData := some out, status := .COMPLETED, hasCompletedAt := true }

/-- The committed database of a successful save_output_and_complete_task:
output written, owning artifact inserted, task marked COMPLETED with a
completion timestamp. -/
def commitDB (db : DB) (tid : Nat) (agentId : String) (out : TaskOutput) : DB :=
  let db1 := updateTask db tid (fun t => { t with outputData := some out })
  let db2 := { db1 with artifacts := db1.artifacts ++
      [⟨tid, artifactNameForAgent agentId, out.schemaId, out.payload⟩] }
  updateTask db2 tid (fun t => { t with status := .COMPLETED, hasCompletedAt := true })

def dbGhost : DB :=
  { jobs := [⟨1, .IN_PROGRESS, false⟩], tasks := [taskGhost], artifacts := [],
    nextTaskId := 5 }

section Lemmas

theorem find?_cons_eval {α : Type} (p : α → Bool) (a : α) (l : List α) :
    (a :: l).find? p = if p a then some a else l.find? p := by
  cases hpa : p a <;> simp [List.find?, hpa]

theorem find?_map_rowUpdate (l : List TaskRec) (tid tid' : Nat) (f : TaskRec → TaskRec)
    (hid : ∀ t, (f t).id = t.id) :
    (l.map (fun t => if t.id == tid then f t else t)).find? (fun t => t.id == tid') =
      (l.find? (fun t => t.id == tid')).map (fun t => if t.id == tid then f t else t) := by
  induction l with
  | nil => rfl
  | cons h l ih =>
    have hpred : ((if h.id == tid then f h else h).id == tid') = (h.id == tid') := by
      by_cases hc : h.id == tid <;> simp [hc, hid]
    simp only [List.map_cons, find?_cons_eval, hpred]
    cases hp : (h.id == tid') with
    | true => simp [hp]
    | false => rw [if_neg Bool.false_ne_true, if_neg Bool.false_ne_true, ih]

theorem findTask_updateTask (db : DB) (tid tid' : Nat) (f : TaskRec → TaskRec)
    (hid : ∀ t, (f t).id = t.id) :
    findTask (updateTask db tid f) tid' =
      (findTask db tid').map (fun t => if t.id == tid then f t else t) :=
  find?_map_rowUpdate db.tasks tid tid' f hid

theorem findTask_updateTask_self (db : DB) (tid : Nat) (f : TaskRec → TaskRec)
    (hid : ∀ t, (f t).id = t.id) :
    findTask (updateTask db tid f) tid = (findTask db tid).map f := by
  rw [findTask_updateTask db tid tid f hid]
  cases hf : findTask db tid with
  | none => rfl
  | some t =>
    have hpt := List.find?_some hf
    show some (if t.id == tid then f t else t) = some (f t)
    rw [if_pos hpt]

theorem findTask_isSome_updateTask (db : DB) (tid tid' : Nat) (f : TaskRec → TaskRec)
    (hid : ∀ t, (f t).id = t.id) :
    (findTask (updateTask db tid f) tid').isSome = (findTask db tid').isSome := by
  rw [findTask_updateTask db tid tid' f hid]
  cases findTask db tid' <;> rfl

theorem artifacts_updateTask (db : DB) (tid : Nat) (f : TaskRec → TaskRec) :
    (updateTask db tid f).artifacts = db.artifacts := rfl

theorem jobs_updateTask (db : DB) (tid : Nat) (f : TaskRec → TaskRec) :
    (updateTask db tid f).jobs = db.jobs := rfl

theorem updateTaskStatus_IN_PROGRESS_eq (db : DB) (tid : Nat) (e : Option String) :
    updateTaskStatus db tid .IN_PROGRESS e =
      updateTask db tid (fun t => { t with status := .IN_PROGRESS }) := rfl

theorem updateTaskStatus_FAILED_eq (db : DB) (tid : Nat) (e : Option String) :
    updateTaskStatus db tid .FAILED e =
      updateTask db tid (fun t => { t with status := .FAILED, errorLog := e.getD "" }) := rfl

theorem updateTaskStatus_RETRYING_eq (db : DB) (tid : Nat) (e : Option String) :
    updateTaskStatus db tid .RETRYING e =
      updateTask db tid (fun t => { t with status := .RETRYING, errorLog := e.getD "" }) := rfl

theorem updateTaskStatus_id_pres (s : TaskStatus) (errLog : Option String)
    (db : DB) (tid tid' : Nat) :
    (findTask (updateTaskStatus db tid s errLog) tid').isSome =
      (findTask db tid').isSome := by
  cases s <;>
    first
      | rfl
      | exact findTask_isSome_updateTask db tid tid' _ (fun t => rfl)

theorem findTask_isSome_incrementRetryCount (db : DB) (tid tid' : Nat) :
    (findTask (incrementRetryCount db tid) tid').isSome = (findTask db tid').isSome :=
  findTask_isSome_updateTask db tid tid' _ (fun _ => rfl)

theorem taskHasStatus_updateTaskStatus_FAILED (db : DB) (tid : Nat) (e : Option String)
    (h : (findTask db tid).isSome = true) :
    taskHasStatus (updateTaskStatus db tid .FAILED e) tid .FAILED = true := by
  rw [updateTaskStatus_FAILED_eq]
  unfold taskHasStatus
  rw [findTask_updateTask_self db tid
    (fun t => { t with status := .FAILED, errorLog := e.getD "" }) (fun t => rfl)]
  cases hf : findTask db tid with
  | none => rw [hf] at h; exact absurd h (by simp)
  | some t => rfl

theorem findTask_updateTask_out (db : DB) (tid : Nat) (out : TaskOutput) :
    findTask (updateTask db tid (fun u => { u with outputData := some out })) tid =
      (findTask db tid).map (fun u => { u with outputData := some out }) :=
  findTask_updateTask_self db tid _ (fun _ => rfl)

theorem findTask_updateTask_complete (db : DB) (tid : Nat) :
    findTask (updateTask db tid
        (fun u => { u with status := TaskStatus.COMPLETED, hasCompletedAt := true })) tid =
      (findTask db tid).map
        (fun u => { u with status := TaskStatus.COMPLETED, hasCompletedAt := true }) :=
  findTask_updateTask_self db tid _ (fun _ => rfl)

theorem findTask_artifact_override (db : DB) (l : List ArtifactRec) (tid : Nat) :
    findTask { db with artifacts := l } tid = findTask db tid := rfl

theorem artifactExists_updateTask (db : DB) (tid tid' : Nat) (f : TaskRec → TaskRec)
    (n : String) : artifactExists (updateTask db tid f) tid' n = artifactExists db tid' n :=
  rfl

/-- Failure/success shape analysis of the commit: any failure of schema
validation, any transaction-statement failure, or the in-transaction payload
check makes the whole call raise with the transaction rolled back; otherwise
the call commits exactly the three writes. -/
theorem saveOutput_error_or_commit (schemaOk : TaskOutput → Bool) (stepOk : Nat → Bool)
    (db : DB) (tid : Nat) (agentId : String) (out : TaskOutput)
    (hna : artifactExists db tid (artifactNameForAgent agentId) = false) :
    (∃ e, saveOutputAndCompleteTask schemaOk stepOk db tid agentId out = .error e) ∨
    saveOutputAndCompleteTask schemaOk stepOk db tid agentId out =
      .ok (commitDB db tid agentId out) := by
  unfold saveOutputAndCompleteTask
  by_cases h1 : schemaOk out = true
  · by_cases h2 : stepOk 1 = true
    · cases hbc : blueprintCheck out.schemaId out.payload with
      | some e => exact Or.inl ⟨e, by simp [h1, h2, hbc]⟩
      | none =>
        by_cases h3 : stepOk 2 = true
        · by_cases h4 : stepOk 3 = true
          · refine Or.inr ?_
            simp only [h1, h2, hbc, h3, h4, not_true, if_neg, insertArtifactUnique,
              artifactExists_updateTask, hna, Bool.false_eq_true, if_false, commitDB]
          · exact Or.inl ⟨⟨none, "database connection failure"⟩, by
              simp [h1, h2, hbc, h3, h4, insertArtifactUnique,
                artifactExists_updateTask, hna]⟩
        · exact Or.inl ⟨⟨none, "database connection failure"⟩, by simp [h1, h2, hbc, h3]⟩
    · exact Or.inl ⟨⟨none, "database connection failure"⟩, by simp [h1, h2]⟩
  · exact Or.inl ⟨⟨none, "Output schema validation failed"⟩, by simp [h1]⟩

theorem commitDB_findTask (db : DB) (tid : Nat) (agentId : String) (out : TaskOutput)
    (t : TaskRec) (ht : findTask db tid = some t) :
    findTask (commitDB db tid agentId out) tid =
      some { t with outputData := some out, status := .COMPLETED, hasCompletedAt := true } := by
  unfold commitDB
  rw [findTask_updateTask_complete, findTask_artifact_override, findTask_updateTask_out, ht]
  rfl

theorem commitDB_artifacts (db : DB) (tid : Nat) (agentId : String) (out : TaskOutput) :
    (commitDB db tid agentId out).artifacts =
      db.artifacts ++ [⟨tid, artifactNameForAgent agentId, out.schemaId, out.payload⟩] := rfl

end Lemmas

/-- C2: for every task whose status is already COMPLETED, run_task returns
success immediately, invokes the stage processing function zero times, and
leaves the database (in particular the artifacts table) unchanged, so a second
invocation after completion is a no-op. -/
theorem run_task_completed_guard_noop (stage : Nat → StageResult)
    (schemaOk : TaskOutput → Bool) (stepOk : Nat → Bool) (maxRetries retryDelay : Nat)
    (db : DB) (tid : Nat) (agentId : String) (t : TaskRec)
    (ht : findTask db tid = some t) (hc : t.status = .COMPLETED) :
    (runTask stage schemaOk stepOk maxRetries retryDelay db tid agentId).returned = true ∧
    (runTask stage schemaOk stepOk maxRetries retryDelay db tid agentId).invocations = 0 ∧
    (runTask stage schemaOk stepOk maxRetries retryDelay db tid agentId).db = db ∧
    (runTask stage schemaOk stepOk maxRetries retryDelay db tid agentId).db.artifacts
      = db.artifacts := by
  have hrun : runTask stage schemaOk stepOk maxRetries retryDelay db tid agentId =
      ⟨true, db, 0, []⟩ := by
    unfold runTask
    rw [ht]
    simp [hc]
  rw [hrun]
  exact ⟨rfl, rfl, rfl, rfl⟩

theorem findTask_isSome_markInProgress (db : DB) (tid attempt : Nat) :
    (findTask (markInProgressIfNeeded db tid attempt) tid).isSome =
      (findTask db tid).isSome := by
  unfold markInProgressIfNeeded
  by_cases hc : (attempt == 0 || taskHasStatus db tid .RETRYING) = true
  · rw [if_pos hc]
    exact updateTaskStatus_id_pres .IN_PROGRESS none db tid tid
  · rw [if_neg hc]

/-- One loop iteration in which the stage function raises: the step equation
of runTaskLoop specialised to the failure case. -/
theorem runTaskLoop_succ_fail (stage : Nat → StageResult) (schemaOk : TaskOutput → Bool)
    (stepOk : Nat → Bool) (m d tid : Nat) (agentId : String) (attempt fuel : Nat)
    (db : DB) (e : PyErr) (hse : stage attempt = .failure e) :
    runTaskLoop stage schemaOk stepOk m d tid agentId attempt (fuel + 1) db =
      (if classifyError e && decide (attempt < m - 1) then
        ⟨(runTaskLoop stage schemaOk stepOk m d tid agentId
            (attempt + 1) fuel (retryDB db tid attempt e)).returned,
         (runTaskLoop stage schemaOk stepOk m d tid agentId
            (attempt + 1) fuel (retryDB db tid attempt e)).db,
         (runTaskLoop stage schemaOk stepOk m d tid agentId
            (attempt + 1) fuel (retryDB db tid attempt e)).invocations + 1,
         d * 2 ^ attempt ::
           (runTaskLoop stage schemaOk stepOk m d tid agentId
             (attempt + 1) fuel (retryDB db tid attempt e)).sleeps⟩
      else ⟨false, updateTaskStatus (markInProgressIfNeeded db tid attempt) tid
        .FAILED (some e.msg), 1, []⟩) := by
  conv_lhs => rw [runTaskLoop]
  rw [hse]
  rfl

/-- Retry-loop analysis for a stage function that raises a retryable error on
every attempt: each loop iteration consumes exactly one stage invocation and,
except for the last, one backoff sleep of retry_delay * 2 ^ attempt; the last
iteration marks the task FAILED. -/
theorem runTaskLoop_all_retryable (stage : Nat → StageResult)
    (schemaOk : TaskOutput → Bool) (stepOk : Nat → Bool) (m d tid : Nat)
    (agentId : String)
    (hstage : ∀ n, ∃ e, stage n = .failure e ∧ classifyError e = true) :
    ∀ fuel attempt db, attempt + fuel = m → 1 ≤ fuel →
      (findTask db tid).isSome = true →
      (runTaskLoop stage schemaOk stepOk m d tid agentId attempt fuel db).returned = false ∧
      (runTaskLoop stage schemaOk stepOk m d tid agentId attempt fuel db).invocations = fuel ∧
      (runTaskLoop stage schemaOk stepOk m d tid agentId attempt fuel db).sleeps =
        (List.range (fuel - 1)).map (fun i => d * 2 ^ (attempt + i)) ∧
      taskHasStatus (runTaskLoop stage schemaOk stepOk m d tid agentId attempt fuel db).db
        tid .FAILED = true := by
  intro fuel
  induction fuel with
  | zero => intro attempt db hm hge; exact absurd hge (by omega)
  | succ f ih =>
    intro attempt db hm _ hsome
    obtain ⟨e, hse, hce⟩ := hstage attempt
    have hsome1 : (findTask (markInProgressIfNeeded db tid attempt) tid).isSome = true := by
      rw [findTask_isSome_markInProgress]
      exact hsome
    cases f with
    | zero =>
      have hlt : ¬ (attempt < m - 1) := by omega
      have hcond : (classifyError e && decide (attempt < m - 1)) = false := by
        rw [hce, decide_eq_false hlt, Bool.and_false]
      rw [runTaskLoop_succ_fail stage schemaOk stepOk m d tid agentId attempt 0 db e hse,
        hcond, if_neg Bool.false_ne_true]
      refine ⟨rfl, rfl, rfl, ?_⟩
      exact taskHasStatus_updateTaskStatus_FAILED _ tid (some e.msg) hsome1
    | succ f2 =>
      have hlt : attempt < m - 1 := by omega
      have hcond : (classifyError e && decide (attempt < m - 1)) = true := by
        rw [hce, decide_eq_true hlt, Bool.and_self]
      have hsome2 : (findTask (retryDB db tid attempt e) tid).isSome = true := by
        unfold retryDB
        rw [updateTaskStatus_id_pres, findTask_isSome_incrementRetryCount]
        exact hsome1
      have hrec := ih (attempt + 1) (retryDB db tid attempt e) (by omega) (by omega) hsome2
      rw [runTaskLoop_succ_fail stage schemaOk stepOk m d tid agentId attempt (f2 + 1) db e
        hse, hcond, if_pos rfl]
      refine ⟨hrec.1, ?_, ?_, hrec.2.2.2⟩
      · show (runTaskLoop stage schemaOk stepOk m d tid agentId (attempt + 1) (f2 + 1)
            (retryDB db tid attempt e)).invocations + 1 = f2 + 1 + 1
        rw [hrec.2.1]
      · show d * 2 ^ attempt :: (runTaskLoop stage schemaOk stepOk m d tid agentId
            (attempt + 1) (f2 + 1) (retryDB db tid attempt e)).sleeps =
          (List.range (f2 + 1 + 1 - 1)).map (fun i => d * 2 ^ (attempt + i))
        rw [hrec.2.2.1]
        show d * 2 ^ attempt :: (List.range f2).map (fun i => d * 2 ^ (attempt + 1 + i)) =
          (List.range (f2 + 1)).map (fun i => d * 2 ^ (attempt + i))
        rw [List.range_succ_eq_map, List.map_cons, List.map_map]
        have hf : ((fun i => d * 2 ^ (attempt + i)) ∘ Nat.succ) =
            (fun i => d * 2 ^ (attempt + 1 + i)) := by
          funext i
          show d * 2 ^ (attempt + (i + 1)) = d * 2 ^ (attempt + 1 + i)
          have hexp : attempt + (i + 1) = attempt + 1 + i := by omega
          rw [hexp]
        rw [hf]
        rfl

/-- C1: the Task Runner commit performs its three writes (save the output,
insert the owning artifact, mark the task COMPLETED with a completion
timestamp) all-or-nothing: every outcome either leaves the database exactly as
it was (the call raised, transaction rolled back) or carries all three
effects; in every outcome the artifact is present exactly when the owning task
is COMPLETED, so no reachable state pairs an artifact with a non-completed
owner or a COMPLETED task with a missing artifact. -/
theorem save_output_and_complete_task_atomic (schemaOk : TaskOutput → Bool)
    (stepOk : Nat → Bool) (db : DB) (tid : Nat) (agentId : String) (out : TaskOutput)
    (t : TaskRec) (ht : findTask db tid = some t) (hnc : t.status ≠ .COMPLETED)
    (hna : artifactExists db tid (artifactNameForAgent agentId) = false) :
    ((saveOutputAndCompleteTaskRun schemaOk stepOk db tid agentId out = db ∧
        ∃ e, saveOutputAndCompleteTask schemaOk stepOk db tid agentId out = .error e) ∨
      (taskHasStatus (saveOutputAndCompleteTaskRun schemaOk stepOk db tid agentId out)
          tid .COMPLETED = true ∧
        taskCompletedAt (saveOutputAndCompleteTaskRun schemaOk stepOk db tid agentId out)
          tid = true ∧
        artifactExists (saveOutputAndCompleteTaskRun schemaOk stepOk db tid agentId out)
          tid (artifactNameForAgent agentId) = true)) ∧
    artifactExists (saveOutputAndCompleteTaskRun schemaOk stepOk db tid agentId out)
        tid (artifactNameForAgent agentId) =
      taskHasStatus (saveOutputAndCompleteTaskRun schemaOk stepOk db tid agentId out)
        tid .COMPLETED := by
  have hstatF : taskHasStatus db tid .COMPLETED = false := by
    unfold taskHasStatus
    rw [ht]
    show (t.status == TaskStatus.COMPLETED) = false
    cases hts : t.status <;> first | rfl | exact absurd hts hnc
  rcases saveOutput_error_or_commit schemaOk stepOk db tid agentId out hna with ⟨e, he⟩ | hok
  · have hrun : saveOutputAndCompleteTaskRun schemaOk stepOk db tid agentId out = db := by
      unfold saveOutputAndCompleteTaskRun
      rw [he]
    rw [hrun]
    exact ⟨Or.inl ⟨rfl, e, he⟩, by rw [hna, hstatF]⟩
  · have hrun : saveOutputAndCompleteTaskRun schemaOk stepOk db tid agentId out =
        commitDB db tid agentId out := by
      unfold saveOutputAndCompleteTaskRun
      rw [hok]
    rw [hrun]
    have h1 : taskHasStatus (commitDB db tid agentId out) tid .COMPLETED = true := by
      unfold taskHasStatus
      rw [commitDB_findTask db tid agentId out t ht]
      rfl
    have h2 : taskCompletedAt (commitDB db tid agentId out) tid = true := by
      unfold taskCompletedAt
      rw [commitDB_findTask db tid agentId out t ht]
    have h3 : artifactExists (commitDB db tid agentId out) tid
        (artifactNameForAgent agentId) = true := by
      unfold artifactExists
      rw [commitDB_artifacts]
      simp [List.any_append]
    exact ⟨Or.inr ⟨h1, h2, h3⟩, by rw [h3, h1]⟩

/-- C1 witness: a concrete commit on an ASSIGNED task with no prior artifact;
the all-or-nothing coupling evaluated at that input. -/
theorem save_output_and_complete_task_atomic_witness :
    artifactExists (saveOutputAndCompleteTaskRun sOkTrue stepOkAll dbRun 1 "AGENT_1" outBrief)
        1 (artifactNameForAgent "AGENT_1") =
      taskHasStatus (saveOutputAndCompleteTaskRun sOkTrue stepOkAll dbRun 1 "AGENT_1" outBrief)
        1 .COMPLETED :=
  (save_output_and_complete_task_atomic sOkTrue stepOkAll dbRun 1 "AGENT_1" outBrief
    taskRun1 (by rfl) (by decide) (by rfl)).2

theorem chain_le_backoff (d : Nat) (k : Nat) :
    List.Chain' (fun a b => a ≤ b) ((List.range k).map (fun i => d * 2 ^ i)) := by
  rw [List.chain'_map]
  cases k with
  | zero => simp
  | succ n =>
    rw [List.chain'_range_succ]
    intro m _
    have hpow : (2 : Nat) ^ m ≤ 2 ^ (m + 1) :=
      Nat.pow_le_pow_right (by norm_num) (Nat.le_succ m)
    exact Nat.mul_le_mul (Nat.le_refl d) hpow

/-- C3: a task whose stage function raises a retryable error on every attempt
is invoked exactly maxRetries times (config.agent.max_retry_count), ends with
status FAILED, and the successive backoff sleeps are retry_delay * 2 ^ attempt
for attempt = 0 .. maxRetries - 2, a non-decreasing sequence. -/
theorem run_task_retry_budget_exhaustion (stage : Nat → StageResult)
    (schemaOk : TaskOutput → Bool) (stepOk : Nat → Bool) (m d : Nat) (db : DB)
    (tid : Nat) (agentId : String) (t : TaskRec)
    (ht : findTask db tid = some t) (hnc : t.status ≠ .COMPLETED) (hm : 1 ≤ m)
    (hstage : ∀ n, ∃ e, stage n = .failure e ∧ classifyError e = true) :
    (runTask stage schemaOk stepOk m d db tid agentId).returned = false ∧
    (runTask stage schemaOk stepOk m d db tid agentId).invocations = m ∧
    (runTask stage schemaOk stepOk m d db tid agentId).sleeps =
      (List.range (m - 1)).map (fun i => d * 2 ^ i) ∧
    taskHasStatus (runTask stage schemaOk stepOk m d db tid agentId).db tid .FAILED = true ∧
    List.Chain' (fun a b => a ≤ b) (runTask stage schemaOk stepOk m d db tid agentId).sleeps := by
  have hne : (t.status == TaskStatus.COMPLETED) = false := by
    cases hts : t.status <;> first | rfl | exact absurd hts hnc
  have hrun : runTask stage schemaOk stepOk m d db tid agentId =
      runTaskLoop stage schemaOk stepOk m d tid agentId 0 m db := by
    unfold runTask
    rw [ht]
    show (if (t.status == TaskStatus.COMPLETED) = true then RunOutcome.mk true db 0 []
        else runTaskLoop stage schemaOk stepOk m d tid agentId 0 m db) =
      runTaskLoop stage schemaOk stepOk m d tid agentId 0 m db
    rw [hne, if_neg Bool.false_ne_true]
  have hsome : (findTask db tid).isSome = true := by rw [ht]; rfl
  have hloop := runTaskLoop_all_retryable stage schemaOk stepOk m d tid agentId hstage
    m 0 db (by omega) hm hsome
  have hfun : (fun i => d * 2 ^ (0 + i)) = (fun i => d * 2 ^ i) := by
    funext i
    rw [Nat.zero_add]
  rw [hrun]
  refine ⟨hloop.1, hloop.2.1, ?_, hloop.2.2.2, ?_⟩
  · rw [hloop.2.2.1, hfun]
  · rw [hloop.2.2.1, hfun]
    exact chain_le_backoff d (m - 1)

/-- C3 witness: a concrete ASSIGNED task whose stage function always raises a
typed RetryableError; three attempts, FAILED, and backoff sleeps 5, 10. -/
theorem run_task_retry_budget_exhaustion_witness :
    (runTask stageFailNet sOkTrue stepOkAll 3 5 dbRun 1 "AGENT_1").invocations = 3 ∧
    taskHasStatus (runTask stageFailNet sOkTrue stepOkAll 3 5 dbRun 1 "AGENT_1").db
      1 .FAILED = true ∧
    (runTask stageFailNet sOkTrue stepOkAll 3 5 dbRun 1 "AGENT_1").sleeps =
      (List.range 2).map (fun i => 5 * 2 ^ i) := by
  have h := run_task_retry_budget_exhaustion stageFailNet sOkTrue stepOkAll 3 5 dbRun 1
    "AGENT_1" taskRun1 (by rfl) (by decide) (by omega)
    (fun n => ⟨⟨some true, "network glitch"⟩, rfl, rfl⟩)
  exact ⟨h.2.1, h.2.2.2.1, h.2.2.1⟩

/-- C2 witness: a concrete COMPLETED task, on which run_task is a no-op. -/
theorem run_task_completed_guard_noop_witness :
    (runTask stageFailNet sOkTrue stepOkAll 3 5 dbDone 1 "AGENT_1").returned = true ∧
    (runTask stageFailNet sOkTrue stepOkAll 3 5 dbDone 1 "AGENT_1").invocations = 0 ∧
    (runTask stageFailNet sOkTrue stepOkAll 3 5 dbDone 1 "AGENT_1").db = dbDone ∧
    (runTask stageFailNet sOkTrue stepOkAll 3 5 dbDone 1 "AGENT_1").db.artifacts
      = dbDone.artifacts :=
  run_task_completed_guard_noop stageFailNet sOkTrue stepOkAll 3 5 dbDone 1 "AGENT_1"
    taskDone1 (by rfl) (by rfl)

theorem find?_append_some {α : Type} (p : α → Bool) (l1 l2 : List α) (a : α)
    (h : l1.find? p = some a) : (l1 ++ l2).find? p = some a := by
  induction l1 with
  | nil => simp at h
  | cons x xs ih =>
    rw [find?_cons_eval] at h
    rw [List.cons_append, find?_cons_eval]
    by_cases hp : p x = true
    · rw [if_pos hp] at h ⊢
      exact h
    · rw [if_neg hp] at h ⊢
      exact ih h

theorem find?_append_of_none {α : Type} (p : α → Bool) (l1 l2 : List α)
    (h : l1.find? p = none) : (l1 ++ l2).find? p = l2.find? p := by
  induction l1 with
  | nil => rfl
  | cons x xs ih =>
    rw [find?_cons_eval] at h
    rw [List.cons_append, find?_cons_eval]
    by_cases hp : p x = true
    · rw [if_pos hp] at h
      exact absurd h (by simp)
    · rw [if_neg hp] at h ⊢
      exact ih h

theorem find?_map_upd {α : Type} (l : List α) (q : α → Bool) (f : α → α)
    (hq : ∀ a, q (f a) = q a) :
    (l.map (fun a => if q a then f a else a)).find? q = (l.find? q).map f := by
  induction l with
  | nil => rfl
  | cons x xs ih =>
    have hx : q (if q x then f x else x) = q x := by
      by_cases hqx : q x = true <;> simp [hqx, hq]
    simp only [List.map_cons, find?_cons_eval, hx]
    by_cases hqx : q x = true
    · rw [if_pos hqx, if_pos hqx, if_pos hqx]
      rfl
    · rw [if_neg hqx, if_neg hqx]
      exact ih

theorem findJob_updateJob_self (db : DB) (jid : Nat) (f : JobRec → JobRec)
    (hid : ∀ j, (f j).id = j.id) :
    findJob (updateJob db jid f) jid = (findJob db jid).map f := by
  unfold findJob updateJob
  exact find?_map_upd db.jobs _ f
    (fun a => by show ((f a).id == jid) = (a.id == jid); rw [hid a])

theorem findTask_updateJob (db : DB) (jid : Nat) (f : JobRec → JobRec) (tid : Nat) :
    findTask (updateJob db jid f) tid = findTask db tid := rfl

theorem findJob_createTask (db : DB) (jobId : Nat) (agentId : String)
    (arts : List (String × Nat)) (jid : Nat) :
    findJob (createTask db jobId agentId arts) jid = findJob db jid := rfl

theorem createSystemFailureCase_tasks (db : DB) (t : TaskRec) :
    (createSystemFailureCase db t).tasks = db.tasks := by
  unfold createSystemFailureCase insertArtifactUnique
  by_cases h : artifactExists db t.id "system_failure_case" = true
  · rw [if_pos h]
  · rw [if_neg h]

theorem createSystemFailureCase_jobs (db : DB) (t : TaskRec) :
    (createSystemFailureCase db t).jobs = db.jobs := by
  unfold createSystemFailureCase insertArtifactUnique
  by_cases h : artifactExists db t.id "system_failure_case" = true
  · rw [if_pos h]
  · rw [if_neg h]

theorem createSystemFailureCase_nextTaskId (db : DB) (t : TaskRec) :
    (createSystemFailureCase db t).nextTaskId = db.nextTaskId := by
  unfold createSystemFailureCase insertArtifactUnique
  by_cases h : artifactExists db t.id "system_failure_case" = true
  · rw [if_pos h]
  · rw [if_neg h]

theorem findTask_eq_find_tasks (db : DB) (tid : Nat) :
    findTask db tid = db.tasks.find? (fun t => t.id == tid) := rfl

theorem findJob_eq_find_jobs (db : DB) (jid : Nat) :
    findJob db jid = db.jobs.find? (fun j => j.id == jid) := rfl

theorem findTask_updateTask_requeue (db : DB) (tid : Nat) :
    findTask (updateTask db tid
        (fun t => { t with status := TaskStatus.PENDING, retryCount := t.retryCount + 1 })) tid =
      (findTask db tid).map
        (fun t => { t with status := TaskStatus.PENDING, retryCount := t.retryCount + 1 }) :=
  findTask_updateTask_self db tid _ (fun _ => rfl)

/-- C4 counterexample: a FAILED task with retry_count 1 (below
max_retry_attempts 3) is selected by the failure-monitoring query and
_process_failed_task moves it back to PENDING with retry_count incremented —
a FAILED task is re-queued for another attempt, contradicting the claim. -/
theorem failure_cycle_requeues_failed_task :
    taskFail7 ∈ monitorFailedTasksSelect dbFail 3 ∧
    taskHasStatus (processFailedTask engTest 3 dbFail taskFail7) 7 .PENDING = true ∧
    (findTask (processFailedTask engTest 3 dbFail taskFail7) 7).map
      (fun t => t.retryCount) = some 2 := by
  refine ⟨by decide, by rfl, by rfl⟩

/-- C4 amended: the failure cycle re-queues rather than escalates while
retry_count is below max_retry_attempts — the FAILED task goes back to PENDING
with retry_count incremented; only at retry_count ≥ max_retry_attempts does it
escalate (failure-case artifact, new PENDING AGENT_5 task, job FAILED) without
changing the failed task's row, and such an exhausted task is never selected
by the failure-monitoring query. -/
theorem process_failed_task_branches (eng : WorkflowEngine) (maxA : Nat) (db : DB)
    (task : TaskRec) (t1 : TaskRec) (h1 : findTask db task.id = some t1)
    (hfresh : ∀ u ∈ db.tasks, u.id < db.nextTaskId) (j : JobRec)
    (hj : findJob db task.jobId = some j) :
    (task.retryCount < maxA →
      taskHasStatus (processFailedTask eng maxA db task) task.id .PENDING = true ∧
      findTask (processFailedTask eng maxA db task) task.id =
        some { t1 with status := .PENDING, retryCount := t1.retryCount + 1 }) ∧
    (maxA ≤ task.retryCount →
      findTask (processFailedTask eng maxA db task) task.id = some t1 ∧
      jobHasStatus (processFailedTask eng maxA db task) task.jobId .FAILED = true ∧
      taskHasStatus (processFailedTask eng maxA db task) db.nextTaskId .PENDING = true ∧
      task ∉ monitorFailedTasksSelect db maxA) := by
  constructor
  · intro hlt
    have hres : processFailedTask eng maxA db task =
        updateTask db task.id
          (fun t => { t with status := .PENDING, retryCount := t.retryCount + 1 }) := by
      unfold processFailedTask
      rw [if_pos hlt]
    rw [hres, findTask_updateTask_requeue, h1]
    constructor
    · unfold taskHasStatus
      rw [findTask_updateTask_requeue, h1]
      rfl
    · rfl
  · intro hge
    have hnlt : ¬ task.retryCount < maxA := by omega
    have hres : processFailedTask eng maxA db task =
        updateJob (createTask (createSystemFailureCase db task) task.jobId "AGENT_5"
            (prepareTaskInput eng (createSystemFailureCase db task) task.jobId "AGENT_5"))
          task.jobId (fun jr => { jr with status := .FAILED }) := by
      unfold processFailedTask
      rw [if_neg hnlt]
    have htasks1 : findTask (createSystemFailureCase db task) task.id = some t1 := by
      rw [findTask_eq_find_tasks, createSystemFailureCase_tasks]
      exact h1
    have hfound : findTask (createTask (createSystemFailureCase db task) task.jobId "AGENT_5"
        (prepareTaskInput eng (createSystemFailureCase db task) task.jobId "AGENT_5"))
        task.id = some t1 := by
      rw [findTask_eq_find_tasks]
      show ((createSystemFailureCase db task).tasks ++ _).find? (fun t => t.id == task.id)
        = some t1
      exact find?_append_some _ _ _ _ htasks1
    refine ⟨?_, ?_, ?_, ?_⟩
    · rw [hres, findTask_updateJob]
      exact hfound
    · rw [hres]
      unfold jobHasStatus
      rw [findJob_updateJob_self _ task.jobId
        (fun jr => { jr with status := JobStatus.FAILED }) (fun _ => rfl),
        findJob_createTask, findJob_eq_find_jobs, createSystemFailureCase_jobs,
        ← findJob_eq_find_jobs, hj]
      rfl
    · rw [hres]
      unfold taskHasStatus
      rw [findTask_updateJob, findTask_eq_find_tasks]
      have hnone : (createSystemFailureCase db task).tasks.find?
          (fun t => t.id == db.nextTaskId) = none := by
        rw [createSystemFailureCase_tasks]
        rw [List.find?_eq_none]
        intro u hu
        have := hfresh u hu
        simp only [beq_iff_eq]
        omega
      have hsplit : (createTask (createSystemFailureCase db task) task.jobId "AGENT_5"
          (prepareTaskInput eng (createSystemFailureCase db task) task.jobId "AGENT_5")).tasks =
        (createSystemFailureCase db task).tasks ++
          [{ id := (createSystemFailureCase db task).nextTaskId, jobId := task.jobId,
             agentId := "AGENT_5", status := TaskStatus.PENDING,
             inputArtifacts := prepareTaskInput eng (createSystemFailureCase db task)
               task.jobId "AGENT_5",
             outputData := none, errorLog := "", retryCount := 0,
             hasCompletedAt := false }] := rfl
      rw [hsplit, find?_append_of_none _ _ _ hnone, find?_cons_eval,
        createSystemFailureCase_nextTaskId, if_pos (by simp)]
      rfl
    · intro hmem
      have hp := List.of_mem_filter hmem
      have : task.retryCount < maxA := by
        have hand := (Bool.and_eq_true _ _).mp hp
        exact of_decide_eq_true hand.2
      omega

/-- C4 witness for the amended claim: the re-queue branch evaluated on the
concrete FAILED task with retry budget remaining. -/
theorem process_failed_task_branches_witness :
    taskHasStatus (processFailedTask engTest 3 dbFail taskFail7) 7 .PENDING = true ∧
    findTask (processFailedTask engTest 3 dbFail taskFail7) 7 =
      some { taskFail7 with status := .PENDING, retryCount := taskFail7.retryCount + 1 } :=
  (process_failed_task_branches engTest 3 dbFail taskFail7 taskFail7 (by rfl)
    (by decide) ⟨3, .IN_PROGRESS, false⟩ (by rfl)).1 (by decide)

theorem markOrchestrated_artifacts (db : DB) (tid : Nat) :
    (markOrchestrated db tid).artifacts = db.artifacts := rfl

theorem foldl_createTask_artifacts (jobId : Nat) (eng : WorkflowEngine) :
    ∀ (l : List String) (db : DB),
      (l.foldl (fun d a => createTask d jobId a (prepareTaskInput eng d jobId a)) db).artifacts
        = db.artifacts := by
  intro l
  induction l with
  | nil => intro db; rfl
  | cons x xs ih =>
    intro db
    rw [List.foldl_cons, ih]
    rfl

theorem createArtifact_artifacts (eng : WorkflowEngine) (db : DB) (task : TaskRec) :
    (createArtifact eng db task).artifacts = db.artifacts ∨
    ∃ a : ArtifactRec, a.taskId = task.id ∧ artifactExists db a.taskId a.name = false ∧
      (createArtifact eng db task).artifacts = db.artifacts ++ [a] := by
  unfold createArtifact insertArtifactOnConflict
  dsimp only
  split
  · exact Or.inl rfl
  · split
    · exact Or.inl rfl
    · split
      · split
        · exact Or.inl rfl
        · rename_i hex
          refine Or.inr ⟨_, rfl, ?_, rfl⟩
          revert hex
          cases artifactExists db task.id _ <;> simp
      · exact Or.inl rfl

/-- C5 counterexample: the completed-task cycle does write to the Artifact
Store — processing a concrete COMPLETED task selected by the completed-task
polling query inserts one artifacts row via _create_artifact. -/
theorem completed_cycle_inserts_artifact :
    taskDone1 ∈ pollCompletedTasksSelect dbDone ∧
    (processCompletedTask engTest dbDone taskDone1).artifacts.length =
      dbDone.artifacts.length + 1 := by
  exact ⟨by decide, by rfl⟩

/-- C5 amended: the completed-task cycle does write artifacts, but only
through the idempotent _create_artifact insert: processing a completed task
either leaves the artifacts table unchanged (no output, no declared name,
falsy fields, or the artifact already exists) or appends exactly one new row
owned by the processed task; the rest of the cycle (next-task creation, job
completion, the [ORCHESTRATED] marker) only reads the Artifact Store. -/
theorem completed_cycle_artifact_store_writes (eng : WorkflowEngine) (db : DB)
    (task : TaskRec) :
    (processCompletedTask eng db task).artifacts = db.artifacts ∨
    ∃ a : ArtifactRec, a.taskId = task.id ∧ artifactExists db a.taskId a.name = false ∧
      (processCompletedTask eng db task).artifacts = db.artifacts ++ [a] := by
  have hbranch : (processCompletedTask eng db task).artifacts =
      (createArtifact eng db task).artifacts := by
    unfold processCompletedTask
    dsimp only
    rw [markOrchestrated_artifacts]
    by_cases hn : (getNextAgents eng task.agentId).isEmpty = true
    · rw [if_pos hn]
      rfl
    · rw [if_neg hn]
      exact foldl_createTask_artifacts task.jobId eng _ _
  rw [hbranch]
  exact createArtifact_artifacts eng db task

theorem artifactCount_eq_zero_of_not_exists (db : DB) (tid : Nat) (n : String)
    (h : artifactExists db tid n = false) : artifactCount db tid n = 0 := by
  unfold artifactExists at h
  unfold artifactCount
  rw [List.length_eq_zero, List.filter_eq_nil_iff]
  intro x hx
  rw [List.any_eq_false] at h
  exact h x hx

theorem artifactCount_append_self (db : DB) (a : ArtifactRec) :
    artifactCount { db with artifacts := db.artifacts ++ [a] } a.taskId a.name =
      artifactCount db a.taskId a.name + 1 := by
  unfold artifactCount
  show (List.filter _ (db.artifacts ++ [a])).length = _
  rw [List.filter_append, List.length_append]
  simp

/-- C6 counterexample: a duplicate (task_id, name) insert through the Task
Runner commit raises a unique-violation error that aborts the transaction
instead of completing as a no-op; only the orchestrator insert carries ON
CONFLICT DO NOTHING. -/
theorem sdk_duplicate_insert_raises :
    saveOutputAndCompleteTask sOkTrue stepOkAll dbDup 1 "AGENT_1" outBrief =
      .error ⟨none, "duplicate key value violates unique constraint"⟩ := by rfl

/-- C6 amended: duplicate handling depends on the insert path — the
orchestrator's ON CONFLICT DO NOTHING insert absorbs a duplicate as a no-op,
while the Task Runner commit's plain INSERT raises a unique-violation error
(rolling back its transaction); under the (task_id, name) uniqueness
constraint neither path ever yields a second row for the same key. -/
theorem artifact_insert_duplicate_semantics (db : DB) (a : ArtifactRec) :
    (artifactExists db a.taskId a.name = true →
      insertArtifactOnConflict db a = db ∧
      insertArtifactUnique db a =
        .error ⟨none, "duplicate key value violates unique constraint"⟩) ∧
    (artifactCount db a.taskId a.name ≤ 1 →
      artifactCount (insertArtifactOnConflict db a) a.taskId a.name ≤ 1 ∧
      ∀ db2, insertArtifactUnique db a = .ok db2 →
        artifactCount db2 a.taskId a.name ≤ 1) := by
  constructor
  · intro hex
    unfold insertArtifactOnConflict insertArtifactUnique
    rw [if_pos hex, if_pos hex]
    exact ⟨rfl, rfl⟩
  · intro hcount
    by_cases hex : artifactExists db a.taskId a.name = true
    · constructor
      · unfold insertArtifactOnConflict
        rw [if_pos hex]
        exact hcount
      · intro db2 h2
        unfold insertArtifactUnique at h2
        rw [if_pos hex] at h2
        exact Except.noConfusion h2
    · have hex0 : artifactExists db a.taskId a.name = false := by
        revert hex
        cases artifactExists db a.taskId a.name <;> simp
      have hzero := artifactCount_eq_zero_of_not_exists db a.taskId a.name hex0
      constructor
      · unfold insertArtifactOnConflict
        rw [if_neg hex, artifactCount_append_self, hzero]
      · intro db2 h2
        unfold insertArtifactUnique at h2
        rw [if_neg hex] at h2
        have hdb2 : db2 = { db with artifacts := db.artifacts ++ [a] } :=
          (Except.ok.injEq _ _).mp h2.symm
        rw [hdb2, artifactCount_append_self, hzero]

/-- C6 witness for the amended claim: the duplicate branch evaluated on a
concrete database that already holds the (1, creative_brief) artifact. -/
theorem artifact_insert_duplicate_semantics_witness :
    insertArtifactOnConflict dbDup
        ⟨1, "creative_brief", "CreativeBrief_v1.0", .obj [("summary", "ok")]⟩ = dbDup ∧
    insertArtifactUnique dbDup
        ⟨1, "creative_brief", "CreativeBrief_v1.0", .obj [("summary", "ok")]⟩ =
      .error ⟨none, "duplicate key value violates unique constraint"⟩ :=
  (artifact_insert_duplicate_semantics dbDup
    ⟨1, "creative_brief", "CreativeBrief_v1.0", .obj [("summary", "ok")]⟩).1 (by decide)

theorem artifactInv_iff (db : DB) : artifactInv db = true ↔
    ∀ a ∈ db.artifacts, ∀ t ∈ db.tasks, t.id = a.taskId → t.status = .COMPLETED := by
  unfold artifactInv
  rw [List.all_eq_true]
  constructor
  · intro h a ha t htm hid
    have h2 := h a ha
    rw [List.all_eq_true] at h2
    have h3 := h2 t htm
    rw [Bool.or_eq_true] at h3
    rcases h3 with h3 | h3
    · rw [Bool.not_eq_true'] at h3
      rw [beq_eq_false_iff_ne] at h3
      exact absurd hid h3
    · exact of_decide_eq_true h3
  · intro h a ha
    rw [List.all_eq_true]
    intro t htm
    rw [Bool.or_eq_true]
    by_cases hid : t.id = a.taskId
    · exact Or.inr (decide_eq_true (h a ha t htm hid))
    · refine Or.inl ?_
      rw [Bool.not_eq_true']
      exact beq_eq_false_iff_ne.mpr hid

theorem commitDB_tasks (db : DB) (tid : Nat) (agentId : String) (out : TaskOutput) :
    (commitDB db tid agentId out).tasks =
      db.tasks.map (fun u => if u.id == tid then completeTaskRow out u else u) := by
  show (db.tasks.map (fun u => if u.id == tid then
      { u with outputData := some out } else u)).map
    (fun u => if u.id == tid then
      { u with status := TaskStatus.COMPLETED, hasCompletedAt := true } else u) = _
  rw [List.map_map]
  have hcomp : ((fun u : TaskRec => if u.id == tid then
        { u with status := TaskStatus.COMPLETED, hasCompletedAt := true } else u) ∘
      (fun u : TaskRec => if u.id == tid then { u with outputData := some out } else u)) =
      (fun u : TaskRec => if u.id == tid then completeTaskRow out u else u) := by
    funext u
    by_cases hc : (u.id == tid) = true
    · simp [Function.comp, completeTaskRow, hc]
    · simp [Function.comp, hc]
  rw [hcomp]

/-- On a database already holding the (task, name) artifact, the commit call
always raises (the duplicate aborts the transaction). -/
theorem saveOutput_dup_error (schemaOk : TaskOutput → Bool) (stepOk : Nat → Bool)
    (db : DB) (tid : Nat) (agentId : String) (out : TaskOutput)
    (hex : artifactExists db tid (artifactNameForAgent agentId) = true) :
    ∃ e, saveOutputAndCompleteTask schemaOk stepOk db tid agentId out = .error e := by
  unfold saveOutputAndCompleteTask
  by_cases h1 : schemaOk out = true
  · by_cases h2 : stepOk 1 = true
    · cases hbc : blueprintCheck out.schemaId out.payload with
      | some e => exact ⟨e, by simp [h1, h2, hbc]⟩
      | none =>
        by_cases h3 : stepOk 2 = true
        · exact ⟨⟨none, "duplicate key value violates unique constraint"⟩, by
            simp [h1, h2, hbc, h3, insertArtifactUnique, artifactExists_updateTask, hex]⟩
        · exact ⟨⟨none, "database connection failure"⟩, by simp [h1, h2, hbc, h3]⟩
    · exact ⟨⟨none, "database connection failure"⟩, by simp [h1, h2]⟩
  · exact ⟨⟨none, "Output schema validation failed"⟩, by simp [h1]⟩

/-- A successful commit call can only return the fully committed database. -/
theorem saveOutput_ok_eq (schemaOk : TaskOutput → Bool) (stepOk : Nat → Bool)
    (db : DB) (tid : Nat) (agentId : String) (out : TaskOutput) (db2 : DB)
    (h : saveOutputAndCompleteTask schemaOk stepOk db tid agentId out = .ok db2) :
    db2 = commitDB db tid agentId out := by
  by_cases hna : artifactExists db tid (artifactNameForAgent agentId) = true
  · obtain ⟨e, he⟩ := saveOutput_dup_error schemaOk stepOk db tid agentId out hna
    rw [he] at h
    exact Except.noConfusion h
  · have hna2 : artifactExists db tid (artifactNameForAgent agentId) = false := by
      revert hna
      cases artifactExists db tid (artifactNameForAgent agentId) <;> simp
    rcases saveOutput_error_or_commit schemaOk stepOk db tid agentId out hna2 with
      ⟨e, he⟩ | hok
    · rw [he] at h
      exact Except.noConfusion h
    · rw [hok] at h
      exact ((Except.ok.injEq _ _).mp h).symm

theorem commitDB_inv (db : DB) (tid : Nat) (agentId : String) (out : TaskOutput)
    (h : artifactInv db = true) : artifactInv (commitDB db tid agentId out) = true := by
  rw [artifactInv_iff] at h ⊢
  intro a ha t htm hid
  rw [commitDB_artifacts] at ha
  rw [commitDB_tasks] at htm
  rcases List.mem_map.mp htm with ⟨u, hu, hgu⟩
  rcases List.mem_append.mp ha with hold | hnew
  · by_cases hc : (u.id == tid) = true
    · rw [← hgu, if_pos hc]
      rfl
    · rw [← hgu, if_neg hc]
      rw [← hgu, if_neg hc] at hid
      exact h a hold u hu hid
  · rw [List.mem_singleton] at hnew
    by_cases hc : (u.id == tid) = true
    · rw [← hgu, if_pos hc]
      rfl
    · rw [← hgu, if_neg hc] at hid
      rw [hnew] at hid
      have hne2 : u.id ≠ tid := by simpa using hc
      exact absurd hid hne2

theorem createArtifact_tasks (eng : WorkflowEngine) (db : DB) (task : TaskRec) :
    (createArtifact eng db task).tasks = db.tasks := by
  unfold createArtifact insertArtifactOnConflict
  dsimp only
  split
  · rfl
  · split
    · rfl
    · split
      · split <;> rfl
      · rfl

theorem createArtifact_nextTaskId (eng : WorkflowEngine) (db : DB) (task : TaskRec) :
    (createArtifact eng db task).nextTaskId = db.nextTaskId := by
  unfold createArtifact insertArtifactOnConflict
  dsimp only
  split
  · rfl
  · split
    · rfl
    · split
      · split <;> rfl
      · rfl

theorem artifactInv_updateTask_statusPres (db : DB) (tid : Nat) (f : TaskRec → TaskRec)
    (hid : ∀ t, (f t).id = t.id) (hst : ∀ t, (f t).status = t.status)
    (h : artifactInv db = true) : artifactInv (updateTask db tid f) = true := by
  rw [artifactInv_iff] at h ⊢
  intro a ha t htm hidq
  rcases List.mem_map.mp htm with ⟨u, hu, hgu⟩
  have hidt : t.id = u.id := by
    rw [← hgu]
    by_cases hc : (u.id == tid) = true
    · rw [if_pos hc]
      exact hid u
    · rw [if_neg hc]
  have hstt : t.status = u.status := by
    rw [← hgu]
    by_cases hc : (u.id == tid) = true
    · rw [if_pos hc]
      exact hst u
    · rw [if_neg hc]
  rw [hstt]
  refine h a ha u hu ?_
  rw [← hidt]
  exact hidq

theorem artifactInv_markOrchestrated (db : DB) (tid : Nat)
    (h : artifactInv db = true) : artifactInv (markOrchestrated db tid) = true := by
  unfold markOrchestrated
  refine artifactInv_updateTask_statusPres db tid _ ?_ ?_ h
  · intro t
    by_cases hc : strContains t.errorLog "[ORCHESTRATED]" = true
    · rw [if_pos hc]
    · rw [if_neg hc]
  · intro t
    by_cases hc : strContains t.errorLog "[ORCHESTRATED]" = true
    · rw [if_pos hc]
    · rw [if_neg hc]

theorem artifactInv_completeJob (db : DB) (jobId : Nat) :
    artifactInv (completeJob db jobId) = artifactInv db := rfl

theorem artifactInv_createTask (db : DB) (jobId : Nat) (agentId : String)
    (arts : List (String × Nat))
    (hfresh : ∀ a ∈ db.artifacts, a.taskId < db.nextTaskId)
    (h : artifactInv db = true) :
    artifactInv (createTask db jobId agentId arts) = true := by
  rw [artifactInv_iff] at h ⊢
  intro a ha t htm hid
  rcases List.mem_append.mp htm with hold | hnewt
  · exact h a ha t hold hid
  · rw [List.mem_singleton] at hnewt
    have hlt := hfresh a ha
    rw [hnewt] at hid
    have : a.taskId = db.nextTaskId := hid.symm
    omega

theorem artifactInv_createArtifact (eng : WorkflowEngine) (db : DB) (task : TaskRec)
    (hcomp : ∀ u ∈ db.tasks, u.id = task.id → u.status = .COMPLETED)
    (h : artifactInv db = true) : artifactInv (createArtifact eng db task) = true := by
  rcases createArtifact_artifacts eng db task with heq | ⟨a0, ha0, _, heq⟩
  · rw [artifactInv_iff] at h ⊢
    intro a2 ha2 t htm hid
    rw [heq] at ha2
    rw [createArtifact_tasks] at htm
    exact h a2 ha2 t htm hid
  · rw [artifactInv_iff] at h ⊢
    intro a2 ha2 t htm hid
    rw [heq] at ha2
    rw [createArtifact_tasks] at htm
    rcases List.mem_append.mp ha2 with hold | hnewa
    · exact h a2 hold t htm hid
    · rw [List.mem_singleton] at hnewa
      refine hcomp t htm ?_
      rw [hid, hnewa, ha0]

theorem getNextAgents_nil_or_singleton (eng : WorkflowEngine) (a : String) :
    getNextAgents eng a = [] ∨ ∃ x, getNextAgents eng a = [x] := by
  unfold getNextAgents
  split
  · exact Or.inl rfl
  · split
    · exact Or.inl rfl
    · split
      · exact Or.inr ⟨_, rfl⟩
      · exact Or.inl rfl

/-- C7 counterexample: in a state satisfying the invariant (no artifacts), the
failure-escalation path inserts the system_failure_case artifact owned by the
FAILED task itself, producing a reachable state with an artifact whose task_id
refers to a task that is not COMPLETED. -/
theorem escalation_breaks_completed_owner_invariant :
    artifactInv dbExhausted = true ∧
    artifactInv (processFailedTask engTest 3 dbExhausted taskFail9) = false ∧
    artifactExists (processFailedTask engTest 3 dbExhausted taskFail9) 9
      "system_failure_case" = true ∧
    taskHasStatus (processFailedTask engTest 3 dbExhausted taskFail9) 9 .FAILED = true := by
  exact ⟨by rfl, by rfl, by rfl, by rfl⟩

/-- C7 amended: the completed-owner invariant is an invariant of the Task
Runner commit (all three writes land together, leaving the owner COMPLETED)
and of the completed-task cycle (which inserts only for a task already
COMPLETED), but not of the failure-escalation path, which attaches the
system_failure_case artifact to the FAILED task. -/
theorem artifact_owner_invariant_preserved (schemaOk : TaskOutput → Bool)
    (stepOk : Nat → Bool) (db : DB) (tid : Nat) (agentId : String) (out : TaskOutput)
    (db2 : DB) (eng : WorkflowEngine) (task : TaskRec) :
    (artifactInv db = true →
      saveOutputAndCompleteTask schemaOk stepOk db tid agentId out = .ok db2 →
      artifactInv db2 = true) ∧
    (artifactInv db = true →
      (∀ u ∈ db.tasks, u.id = task.id → u.status = .COMPLETED) →
      (∀ a ∈ db.artifacts, a.taskId < db.nextTaskId) →
      task.id < db.nextTaskId →
      artifactInv (processCompletedTask eng db task) = true) := by
  constructor
  · intro hinv hok
    rw [saveOutput_ok_eq schemaOk stepOk db tid agentId out db2 hok]
    exact commitDB_inv db tid agentId out hinv
  · intro hinv hcomp hfreshA htaskid
    have hinv1 : artifactInv (createArtifact eng db task) = true :=
      artifactInv_createArtifact eng db task hcomp hinv
    have hfresh1 : ∀ a ∈ (createArtifact eng db task).artifacts,
        a.taskId < (createArtifact eng db task).nextTaskId := by
      rw [createArtifact_nextTaskId]
      rcases createArtifact_artifacts eng db task with heq | ⟨a0, ha0, _, heq⟩
      · rw [heq]
        exact hfreshA
      · rw [heq]
        intro a ham
        rcases List.mem_append.mp ham with hold | hnewm
        · exact hfreshA a hold
        · rw [List.mem_singleton] at hnewm
          rw [hnewm, ha0]
          exact htaskid
    rcases getNextAgents_nil_or_singleton eng task.agentId with hga | ⟨x, hga⟩
    · have hres : processCompletedTask eng db task =
          markOrchestrated (completeJob (createArtifact eng db task) task.jobId)
            task.id := by
        unfold processCompletedTask
        rw [hga]
        rfl
      rw [hres]
      refine artifactInv_markOrchestrated _ task.id ?_
      rw [artifactInv_completeJob]
      exact hinv1
    · have hres : processCompletedTask eng db task =
          markOrchestrated (createTask (createArtifact eng db task) task.jobId x
            (prepareTaskInput eng (createArtifact eng db task) task.jobId x))
            task.id := by
        unfold processCompletedTask
        rw [hga]
        rfl
      rw [hres]
      refine artifactInv_markOrchestrated _ task.id ?_
      exact artifactInv_createTask _ task.jobId x _ hfresh1 hinv1

/-- C7 witness for the amended claim: both preserved paths evaluated at the
concrete commit input and at a concrete completed task. -/
theorem artifact_owner_invariant_preserved_witness :
    artifactInv (commitDB dbRun 1 "AGENT_1" outBrief) = true ∧
    artifactInv (processCompletedTask engTest dbDone taskDone1) = true := by
  constructor
  · exact (artifact_owner_invariant_preserved sOkTrue stepOkAll dbRun 1 "AGENT_1" outBrief
      (commitDB dbRun 1 "AGENT_1" outBrief) engTest taskDone1).1 (by rfl) (by rfl)
  · exact (artifact_owner_invariant_preserved sOkTrue stepOkAll dbDone 1 "AGENT_1" outBrief
      dbDone engTest taskDone1).2 (by rfl) (by decide) (by decide) (by decide)

theorem validateWorkflowAux_sound (eng : WorkflowEngine) :
    ∀ (l : List String) (avail : List String), validateWorkflowAux eng avail l = true →
      ∀ i (h : i < l.length) (name : String),
        name ∈ getAgentInputArtifacts eng (l.get ⟨i, h⟩) →
        name ∈ avail ∨ ∃ j, j < i ∧ ∃ hj : j < l.length,
          getAgentOutputArtifact eng (l.get ⟨j, hj⟩) = some name := by
  intro l
  induction l with
  | nil =>
    intro avail _ i h
    exact absurd h (by simp)
  | cons a rest ih =>
    intro avail hval i h name hmem
    unfold validateWorkflowAux at hval
    cases hla : lookupAgent eng a with
    | none =>
      rw [hla] at hval
      exact absurd hval (by simp)
    | some d =>
      rw [hla] at hval
      have hval2 : (if (d.inputArtifacts.all fun art => avail.contains art) = true then
          (match d.outputArtifact with
            | some o => validateWorkflowAux eng (avail ++ [o]) rest
            | none => validateWorkflowAux eng avail rest)
          else false) = true := hval
      by_cases hall : d.inputArtifacts.all (fun art => avail.contains art) = true
      case neg =>
        rw [if_neg hall] at hval2
        exact absurd hval2 (by simp)
      case pos =>
        rw [if_pos hall] at hval2
        rw [List.all_eq_true] at hall
        cases i with
        | zero =>
          refine Or.inl ?_
          have hia : getAgentInputArtifacts eng a = d.inputArtifacts := by
            unfold getAgentInputArtifacts
            rw [hla]
          have hmem2 : name ∈ d.inputArtifacts := by
            rw [← hia]
            exact hmem
          have hc := hall name hmem2
          exact List.elem_iff.mp hc
        | succ i2 =>
          cases hout : d.outputArtifact with
          | some o =>
            rw [hout] at hval2
            have hres := ih (avail ++ [o]) hval2 i2 (Nat.lt_of_succ_lt_succ h) name hmem
            rcases hres with hin | ⟨j, hj1, hj2, hj3⟩
            · rcases List.mem_append.mp hin with h1 | h2
              · exact Or.inl h1
              · rw [List.mem_singleton] at h2
                refine Or.inr ⟨0, by omega, by simp, ?_⟩
                show getAgentOutputArtifact eng a = some name
                unfold getAgentOutputArtifact
                rw [hla]
                show d.outputArtifact = some name
                rw [hout, h2]
            · exact Or.inr ⟨j + 1, by omega, Nat.succ_lt_succ hj2, hj3⟩
          | none =>
            rw [hout] at hval2
            have hres := ih avail hval2 i2 (Nat.lt_of_succ_lt_succ h) name hmem
            rcases hres with hin | ⟨j, hj1, hj2, hj3⟩
            · exact Or.inl hin
            · exact Or.inr ⟨j + 1, by omega, Nat.succ_lt_succ hj2, hj3⟩

/-- C8 counterexample: loading a configuration in which AGENT_B requires an
input artifact no earlier stage produces succeeds (load_workflows performs no
dependency validation and startup does not call validate_workflow), even
though validate_workflow would report the violation. -/
theorem load_accepts_missing_producer :
    orchestratorStartEngine badWorkflowConfig = some engBad ∧
    validateWorkflow engBad = false := by
  exact ⟨rfl, by decide⟩

/-- C8 amended: on a parsed configuration, load/startup always succeeds, with
no dependency check — the missing-producer property is enforced only by the
never-invoked validate_workflow, which is sound: when it returns true, every
required input artifact of every stage is produced by some earlier stage. -/
theorem load_never_validates_dependencies :
    (∀ cfg : WorkflowConfig, (orchestratorStartEngine cfg).isSome = true) ∧
    (∀ eng : WorkflowEngine, validateWorkflow eng = true →
      ∀ i (h : i < eng.executionOrder.length) (name : String),
        name ∈ getAgentInputArtifacts eng (eng.executionOrder.get ⟨i, h⟩) →
        ∃ j, j < i ∧ ∃ hj : j < eng.executionOrder.length,
          getAgentOutputArtifact eng (eng.executionOrder.get ⟨j, hj⟩) = some name) := by
  constructor
  · intro cfg
    rfl
  · intro eng hval i h name hmem
    unfold validateWorkflow at hval
    rw [Bool.and_eq_true] at hval
    have hres := validateWorkflowAux_sound eng eng.executionOrder [] hval.2 i h name hmem
    rcases hres with hin | hgood
    · exact absurd hin (by simp)
    · exact hgood

/-- C8 witness for the amended claim: on a valid two-stage configuration, the
input creative_brief of the second stage is produced by the first. -/
theorem load_never_validates_dependencies_witness :
    ∃ j, j < 1 ∧ ∃ hj : j < engTest.executionOrder.length,
      getAgentOutputArtifact engTest (engTest.executionOrder.get ⟨j, hj⟩) =
        some "creative_brief" :=
  load_never_validates_dependencies.2 engTest (by decide) 1 (by decide)
    "creative_brief" (by decide)

theorem findTask_updateTask_assign (db : DB) (tid : Nat) :
    findTask (updateTask db tid (fun u => { u with status := TaskStatus.ASSIGNED })) tid =
      (findTask db tid).map (fun u => { u with status := TaskStatus.ASSIGNED }) :=
  findTask_updateTask_self db tid _ (fun _ => rfl)

theorem claimMany_none (agentId : String) :
    ∀ (n : Nat) (db : DB),
      db.tasks.find? (fun t => t.agentId == agentId && t.status == TaskStatus.PENDING)
        = none →
      claimMany agentId n db = (List.replicate n none, db) := by
  intro n
  induction n with
  | zero =>
    intro db h
    rfl
  | succ k ih =>
    intro db h
    have h1 : claimNextTask agentId db = (none, db) := by
      unfold claimNextTask
      rw [h]
    show ((claimNextTask agentId db).1 ::
        (claimMany agentId k (claimNextTask agentId db).2).1,
      (claimMany agentId k (claimNextTask agentId db).2).2) = _
    rw [h1, ih db h]
    rfl

/-- C9 amended: at-most-one successful claim per task holds for the
transactional claim_next_task path (SELECT ... FOR UPDATE SKIP LOCKED plus the
ASSIGNED update in one transaction serializes competing claimants): of n + 1
serialized claimants over a database whose only PENDING task for the agent is
t, the first claims t and every later one observes no claimable task; t ends
ASSIGNED. The AgentWorker._poll_tasks path does not have this property (see
the counterexample). -/
theorem claim_next_task_at_most_one (agentId : String) (db : DB) (t : TaskRec) (n : Nat)
    (hone : db.tasks.find?
      (fun u => u.agentId == agentId && u.status == TaskStatus.PENDING) = some t)
    (huniq : ∀ u ∈ db.tasks,
      (u.agentId == agentId && u.status == TaskStatus.PENDING) = true → u.id = t.id) :
    (claimMany agentId (n + 1) db).1 = some t.id :: List.replicate n none ∧
    taskHasStatus (claimMany agentId (n + 1) db).2 t.id .ASSIGNED = true := by
  have h1 : claimNextTask agentId db =
      (some t.id, updateTask db t.id (fun u => { u with status := .ASSIGNED })) := by
    unfold claimNextTask
    rw [hone]
  have hnone : (updateTask db t.id
      (fun u => { u with status := TaskStatus.ASSIGNED })).tasks.find?
      (fun u => u.agentId == agentId && u.status == TaskStatus.PENDING) = none := by
    rw [List.find?_eq_none]
    intro x hx
    rcases List.mem_map.mp hx with ⟨u, hu, hgu⟩
    by_cases hc : (u.id == t.id) = true
    · rw [← hgu, if_pos hc]
      intro hpred
      rw [Bool.and_eq_true] at hpred
      have hstat := of_decide_eq_true hpred.2
      exact absurd hstat (by show TaskStatus.ASSIGNED ≠ TaskStatus.PENDING; decide)
    · rw [← hgu, if_neg hc]
      intro hpred
      exact absurd (huniq u hu hpred) (by simpa using hc)
  have hrest := claimMany_none agentId n
    (updateTask db t.id (fun u => { u with status := .ASSIGNED })) hnone
  have hsome : (findTask db t.id).isSome = true := by
    unfold findTask
    rw [List.find?_isSome]
    exact ⟨t, List.mem_of_find?_eq_some hone, by simp⟩
  constructor
  · show (claimNextTask agentId db).1 ::
        (claimMany agentId n (claimNextTask agentId db).2).1 = _
    rw [h1]
    show some t.id :: (claimMany agentId n
      (updateTask db t.id (fun u => { u with status := .ASSIGNED }))).1 = _
    rw [hrest]
  · show taskHasStatus
      (claimMany agentId n (claimNextTask agentId db).2).2 t.id .ASSIGNED = true
    rw [h1]
    show taskHasStatus (claimMany agentId n
      (updateTask db t.id (fun u => { u with status := .ASSIGNED }))).2 t.id .ASSIGNED = true
    rw [hrest]
    unfold taskHasStatus
    rw [findTask_updateTask_assign]
    cases hf : findTask db t.id with
    | none =>
      rw [hf] at hsome
      exact absurd hsome (by simp)
    | some u => rfl

/-- C9 witness for the amended claim: three serialized claimants over one
concrete PENDING task; the first gets it, the other two get nothing. -/
theorem claim_next_task_at_most_one_witness :
    (claimMany "AGENT_1" 3 dbPend).1 = some 1 :: List.replicate 2 none ∧
    taskHasStatus (claimMany "AGENT_1" 3 dbPend).2 1 .ASSIGNED = true :=
  claim_next_task_at_most_one "AGENT_1" dbPend taskPend1 2 (by rfl) (by decide)

/-- C9 counterexample: the AgentWorker._poll_tasks claiming path reads and
assigns without locking or a status recheck, so in the interleaving where two
workers both run their SELECT before either UPDATE, both observe the same
PENDING task as claimable and both assign and dispatch it — refuting
at-most-one-claim for every claiming path. -/
theorem poll_loop_double_claim :
    taskHasStatus dbPend 1 .PENDING = true ∧
    (twoWorkerPollRace dbPend ["AGENT_1"] ["AGENT_1"]).1 = [1] ∧
    (twoWorkerPollRace dbPend ["AGENT_1"] ["AGENT_1"]).2.1 = [1] := by
  exact ⟨by rfl, by rfl, by rfl⟩

theorem pyIndex_eq_none_of_not_mem (l : List String) (x : String)
    (h : x ∉ l) : pyIndex l x = none := by
  induction l with
  | nil => rfl
  | cons a rest ih =>
    unfold pyIndex
    have hne : ¬ ((a == x) = true) := by
      intro hx
      exact h (by rw [← eq_of_beq hx]; exact List.mem_cons_self a rest)
    rw [if_neg hne, ih (fun hm => h (List.mem_cons_of_mem a hm))]
    rfl

theorem pyIndex_append_singleton (l : List String) (x : String) (h : x ∉ l) :
    pyIndex (l ++ [x]) x = some l.length := by
  induction l with
  | nil => simp [pyIndex]
  | cons a rest ih =>
    rw [List.cons_append]
    unfold pyIndex
    have hne : ¬ ((a == x) = true) := by
      intro hbeq
      exact h (by rw [← eq_of_beq hbeq]; exact List.mem_cons_self a rest)
    rw [if_neg hne, ih (fun hm => h (List.mem_cons_of_mem a hm))]
    rfl

theorem createArtifact_jobs (eng : WorkflowEngine) (db : DB) (task : TaskRec) :
    (createArtifact eng db task).jobs = db.jobs := by
  unfold createArtifact insertArtifactOnConflict
  dsimp only
  split
  · rfl
  · split
    · rfl
    · split
      · split <;> rfl
      · rfl

/-- C10: for an agent id outside the loaded execution order, get_next_agents
catches the ValueError from list.index and returns [] — the same result as for
the last agent of a duplicate-free order — so the completed-task cycle treats
such a task as final and marks its job COMPLETED instead of erroring. -/
theorem unknown_agent_job_completion (eng : WorkflowEngine) (db : DB) (task : TaskRec)
    (j : JobRec) (hnot : task.agentId ∉ eng.executionOrder)
    (hj : findJob db task.jobId = some j) :
    getNextAgents eng task.agentId = [] ∧
    (∀ (l : List String) (x : String), eng.executionOrder = l ++ [x] → x ∉ l →
      getNextAgents eng x = []) ∧
    jobHasStatus (processCompletedTask eng db task) task.jobId .COMPLETED = true := by
  have hnil : getNextAgents eng task.agentId = [] := by
    unfold getNextAgents
    rw [pyIndex_eq_none_of_not_mem _ _ hnot]
  refine ⟨hnil, ?_, ?_⟩
  · intro l x horder hx
    unfold getNextAgents
    rw [horder, pyIndex_append_singleton l x hx]
    show (if (l ++ [x]).length ≤ l.length + 1 then ([] : List String)
      else match (l ++ [x]).get? (l.length + 1) with
        | some nxt => [nxt]
        | none => []) = []
    rw [if_pos (by simp)]
  · have hres : processCompletedTask eng db task =
        markOrchestrated (completeJob (createArtifact eng db task) task.jobId) task.id := by
      unfold processCompletedTask
      rw [hnil]
      rfl
    rw [hres]
    unfold jobHasStatus
    show (match findJob (completeJob (createArtifact eng db task) task.jobId) task.jobId with
      | some jr => jr.status == JobStatus.COMPLETED
      | none => false) = true
    unfold completeJob
    rw [findJob_updateJob_self _ task.jobId
      (fun jr => { jr with status := .COMPLETED, hasCompletedAt := true }) (fun _ => rfl)]
    rw [findJob_eq_find_jobs, createArtifact_jobs, ← findJob_eq_find_jobs, hj]
    rfl

/-- C10 witness: a concrete COMPLETED task whose agent AGENT_X is outside the
execution order; processing it marks the owning job COMPLETED. -/
theorem unknown_agent_job_completion_witness :
    getNextAgents engTest "AGENT_X" = [] ∧
    jobHasStatus (processCompletedTask engTest dbGhost taskGhost) 1 .COMPLETED = true := by
  have h := unknown_agent_job_completion engTest dbGhost taskGhost
    ⟨1, .IN_PROGRESS, false⟩ (by decide) (by rfl)
  exact ⟨h.1, h.2.2⟩
